import Mathlib

/-!
Shallow embedding of the umemofi core: the reference/data hierarchy of
src/umemofi/data.py and the algorithm contracts of src/umemofi/algorithms.py.
Python dicts are modelled as insertion-ordered association lists; opaque
value types (sky regions, WCS, pixel buffers, numpy dtypes) are type
parameters.  Methods whose bodies the source leaves as NotImplementedError
stubs are modelled from the spec and say so in their doc comments.
-/

namespace Umemofi

/-- Association-list model of a Python dict: entries in insertion order.
A well-formed Python dict has pairwise-distinct keys; lemmas that need
distinctness take it as a hypothesis. -/
abbrev PyDict (K V : Type) : Type := List (K × V)

namespace PyDict

variable {K V : Type}

/-- Keys in insertion order, as in Python `dict.keys()`. -/
def keys (d : PyDict K V) : List K := d.map Prod.fst

/-- Entry count, as in Python `len(d)`. -/
def size (d : PyDict K V) : Nat := d.length

/-- Subscript read `d[k]`, made total: the first entry with key `k`. -/
def lookup [DecidableEq K] : PyDict K V → K → Option V
  | [], _ => none
  | (a, v) :: rest, k => if a = k then some v else lookup rest k

/-- Subscript write `d[k] = v`: replaces the value at an existing key in
place (keeping its position), otherwise appends a new entry. -/
def set [DecidableEq K] : PyDict K V → K → V → PyDict K V
  | [], k, v => [(k, v)]
  | (a, w) :: rest, k, v => if a = k then (k, v) :: rest else (a, w) :: set rest k v

/-- Key removal `del d[k]`, silent when the key is absent. -/
def erase [DecidableEq K] : PyDict K V → K → PyDict K V
  | [], _ => []
  | (a, w) :: rest, k => if a = k then erase rest k else (a, w) :: erase rest k

end PyDict

/-!
Reference and data layer, embedded from src/umemofi/data.py.  Throughout,
`R` is the opaque SkyRegion type, `P` the sky-position type, `M` the Model
type, `W` the WCS type; object ids and exposure ids are `Nat`.
-/

/-- Embedding of `ObjectData` (data.py): object id, sky region, sky
position, and the private `_models` registry (a dict updated in place). -/
structure ObjectData (R P M : Type) : Type where
  object_id : Nat
  sky_region : R
  sky_position : P
  models : PyDict String M

/-- Embedding of `ObjectData.__init__`: stores its three arguments and
starts the `_models` registry empty. -/
def mkObjectData (object_id : Nat) (sky_region : R) (sky_position : P) :
    ObjectData R P M :=
  ⟨object_id, sky_region, sky_position, []⟩

/-- Writing a Model into the `_models` registry of an `ObjectData`, the
plain Python dict subscript assignment `obj._models[name] = m` performed
by algorithms. -/
def ObjectData.attachModel (o : ObjectData R P M) (algorithm : String) (m : M) :
    ObjectData R P M :=
  { o with models := o.models.set algorithm m }

/-- Embedding of `BlendData` (data.py): the union sky region and the
private `_object_data` dict, stored via the copy `dict(object_data)`. -/
structure BlendData (R P M : Type) : Type where
  sky_region : R
  object_data : PyDict Nat (ObjectData R P M)

/-- Embedding of `BlendData.__init__`. -/
def mkBlendData (sky_region : R) (object_data : PyDict Nat (ObjectData R P M)) :
    BlendData R P M :=
  ⟨sky_region, object_data⟩

/-- Embedding of `ObsRef` (data.py): the handle to one object in one
exposure.  The `neighbors` field is a dict of object id to `ObsRef`, so
the type is a nested inductive; `models` is the private `_models`
registry. -/
inductive ObsRef (R P M W : Type) : Type where
  | mk (object_data : ObjectData R P M) (exposure_id : Nat) (is_coadd : Bool)
      (filter_name : String) (wcs : W)
      (neighbors : List (Nat × ObsRef R P M W)) (region : Option R)
      (models : PyDict String M) : ObsRef R P M W

def ObsRef.object_data : ObsRef R P M W → ObjectData R P M
  | .mk od _ _ _ _ _ _ _ => od

def ObsRef.exposure_id : ObsRef R P M W → Nat
  | .mk _ e _ _ _ _ _ _ => e

def ObsRef.is_coadd : ObsRef R P M W → Bool
  | .mk _ _ c _ _ _ _ _ => c

def ObsRef.filter_name : ObsRef R P M W → String
  | .mk _ _ _ f _ _ _ _ => f

def ObsRef.wcs : ObsRef R P M W → W
  | .mk _ _ _ _ w _ _ _ => w

def ObsRef.neighbors : ObsRef R P M W → PyDict Nat (ObsRef R P M W)
  | .mk _ _ _ _ _ n _ _ => n

def ObsRef.region : ObsRef R P M W → Option R
  | .mk _ _ _ _ _ _ r _ => r

def ObsRef.models : ObsRef R P M W → PyDict String M
  | .mk _ _ _ _ _ _ _ m => m

/-- Property `ObsRef.object_id`, which reads `object_data.object_id`. -/
def ObsRef.object_id (r : ObsRef R P M W) : Nat := r.object_data.object_id

/-- Embedding of `ObsRef.__init__`: `neighbors` defaults to the empty
dict and is otherwise stored via the copy `dict(neighbors)` without any
filtering; the `_models` registry starts empty. -/
def mkObsRef (object_data : ObjectData R P M) (exposure_id : Nat) (is_coadd : Bool)
    (filter_name : String) (wcs : W)
    (neighbors : Option (PyDict Nat (ObsRef R P M W))) (region : Option R) :
    ObsRef R P M W :=
  ObsRef.mk object_data exposure_id is_coadd filter_name wcs
    (match neighbors with
      | some n => n
      | none => []) region []

/-- Writing a Model into the `_models` registry of an `ObsRef`. -/
def ObsRef.attachModel : ObsRef R P M W → String → M → ObsRef R P M W
  | .mk od e c f w n r ms, algorithm, m => .mk od e c f w n r (ms.set algorithm m)

/-- Removal of a subtracted neighbor from the `neighbors` dict of an
`ObsRef`, the in-place `del ref.neighbors[n]` a Deblender performs. -/
def ObsRef.removeNeighbor : ObsRef R P M W → Nat → ObsRef R P M W
  | .mk od e c f w n r ms, k => .mk od e c f w (PyDict.erase n k) r ms

/-- Embedding of `ObsData` (data.py): the materialized pixel cut-out.
Only `image`, `mask`, `weight`, `psf`, `wcs`, `transmission` and `ref`
are stored; the constructor's `region` and `neighbors` parameters have no
corresponding field.  `Img`, `Msk`, `Wgt`, `Ps`, `Tr`, `Rf` are the
opaque buffer, PSF, transmission and back-reference types. -/
structure ObsData (Img Msk Wgt Ps W Tr Rf : Type) : Type where
  image : Img
  mask : Option Msk
  weight : Option Wgt
  psf : Option Ps
  wcs : Option W
  transmission : Option Tr
  ref : Option Rf

/-- Embedding of `ObsData.__init__`: takes `region` (of type `R`) and
`neighbors` (of type `Nb`) like the source, and discards both. -/
def mkObsData (image : Img) (mask : Option Msk) (weight : Option Wgt)
    (psf : Option Ps) (wcs : Option W) (transmission : Option Tr)
    (region : Option R) (neighbors : Option Nb) (ref : Option Rf) :
    ObsData Img Msk Wgt Ps W Tr Rf :=
  ⟨image, mask, weight, psf, wcs, transmission, ref⟩

/-- Embedding of `PSF` (data.py): just the public `models` registry. -/
structure PSF (M : Type) : Type where
  models : PyDict String M

/-- Embedding of `PSF.__init__`: the registry starts empty. -/
def mkPSF : PSF M := ⟨[]⟩

/-- Writing a Model into the `models` registry of a `PSF`. -/
def PSF.attachModel (p : PSF M) (algorithm : String) (m : M) : PSF M :=
  ⟨p.models.set algorithm m⟩

/-- Embedding of `BlendObsRef` (data.py): one exposure across all objects
of a blend; `obs_refs` is the private `_obs_refs` dict of object id to
entry (entry type `E`), stored via the copy `dict(obs_refs)`. -/
structure BlendObsRef (B R E : Type) : Type where
  blend_data : B
  exposure_id : Nat
  is_coadd : Bool
  filter_name : String
  obs_refs : PyDict Nat E
  region : Option R

/-- Embedding of `BlendObsRef.__init__`. -/
def mkBlendObsRef (blend_data : B) (exposure_id : Nat) (is_coadd : Bool)
    (filter_name : String) (obs_refs : PyDict Nat E) (region : Option R) :
    BlendObsRef B R E :=
  ⟨blend_data, exposure_id, is_coadd, filter_name, obs_refs, region⟩

/-- Embedding of `BlendObsData` (data.py): composite buffers plus the
private `_obs_data` dict of object id to `ObsData`. -/
structure BlendObsData (Img Msk Wgt R Rf E : Type) : Type where
  image : Img
  mask : Msk
  weight : Wgt
  obs_data : PyDict Nat E
  region : Option R
  ref : Option Rf

/-- Embedding of `ObsRefStack` (data.py): all exposures of one object;
`obs_refs` is the private `_obs_refs` dict of exposure id to entry. -/
structure ObsRefStack (OD E : Type) : Type where
  object_data : OD
  obs_refs : PyDict Nat E

/-- Embedding of `ObsDataStack` (data.py). -/
structure ObsDataStack (OD E : Type) : Type where
  object_data : OD
  obs_data : PyDict Nat E

/-- Embedding of `BlendObsRefStack` (data.py): the full object-by-exposure
matrix of a blend, one flat dict keyed by `(object_id, exposure_id)`. -/
structure BlendObsRefStack (B E : Type) : Type where
  blend_data : B
  obs_refs : PyDict (Nat × Nat) E

/-- Embedding of `BlendObsRefStack.__init__`. -/
def mkBlendObsRefStack (blend_data : B) (obs_refs : PyDict (Nat × Nat) E) :
    BlendObsRefStack B E :=
  ⟨blend_data, obs_refs⟩

/-- Embedding of `BlendObsDataStack` (data.py). -/
structure BlendObsDataStack (B E : Type) : Type where
  blend_data : B
  obs_data : PyDict (Nat × Nat) E

/-- Embedding of `BlendObsDataStack.__init__`. -/
def mkBlendObsDataStack (blend_data : B) (obs_data : PyDict (Nat × Nat) E) :
    BlendObsDataStack B E :=
  ⟨blend_data, obs_data⟩

/-!
View projections.  The source bodies of `by_exposure` and `by_object` on
both stack classes are `raise NotImplementedError()` stubs, so the
definitions below are modelled from spec section 4.2: each view groups the
flat dict keyed by `(object_id, exposure_id)` on one key component.  A
view value (a `BlendObsRef`, `ObsRefStack`, or Data counterpart) is
modelled by its inner mapping, the content the losslessness property
constrains; the other fields of the view value play no part in any claim.
-/

/-- Modelled from the spec: the distinct exposure ids of a flat stack
mapping, in first-appearance order (Python dict grouping order). -/
def exposureIds (flat : PyDict (Nat × Nat) E) : List Nat :=
  (flat.map (fun p => p.1.2)).dedup

/-- Modelled from the spec: the distinct object ids of a flat stack
mapping, in first-appearance order. -/
def objectIds (flat : PyDict (Nat × Nat) E) : List Nat :=
  (flat.map (fun p => p.1.1)).dedup

/-- Modelled from the spec: the inner mapping of one `by_exposure` view
value, exactly the entries of exposure `e` keyed by object id. -/
def sliceByExposure (flat : PyDict (Nat × Nat) E) (e : Nat) : PyDict Nat E :=
  (flat.filter (fun p => decide (p.1.2 = e))).map (fun p => (p.1.1, p.2))

/-- Modelled from the spec: the inner mapping of one `by_object` view
value, exactly the entries of object `o` keyed by exposure id. -/
def sliceByObject (flat : PyDict (Nat × Nat) E) (o : Nat) : PyDict Nat E :=
  (flat.filter (fun p => decide (p.1.1 = o))).map (fun p => (p.1.2, p.2))

/-- Modelled from the spec: the `by_exposure` view of a flat stack
mapping, a dict of exposure id to inner mapping. -/
def byExposureOf (flat : PyDict (Nat × Nat) E) : PyDict Nat (PyDict Nat E) :=
  (exposureIds flat).map (fun e => (e, sliceByExposure flat e))

/-- Modelled from the spec: the `by_object` view of a flat stack mapping,
a dict of object id to inner mapping. -/
def byObjectOf (flat : PyDict (Nat × Nat) E) : PyDict Nat (PyDict Nat E) :=
  (objectIds flat).map (fun o => (o, sliceByObject flat o))

/-- Re-flattening a `by_exposure` view: rebuilds the flat key
`(object_id, exposure_id)` from each inner entry. -/
def flattenByExposure (v : PyDict Nat (PyDict Nat E)) : PyDict (Nat × Nat) E :=
  (v.map (fun p => p.2.map (fun q => ((q.1, p.1), q.2)))).flatten

/-- Re-flattening a `by_object` view. -/
def flattenByObject (v : PyDict Nat (PyDict Nat E)) : PyDict (Nat × Nat) E :=
  (v.map (fun p => p.2.map (fun q => ((p.1, q.1), q.2)))).flatten

/-- Modelled from the spec: `BlendObsRefStack.by_exposure` (stubbed in the
source). -/
def BlendObsRefStack.by_exposure (s : BlendObsRefStack B E) :
    PyDict Nat (PyDict Nat E) :=
  byExposureOf s.obs_refs

/-- Modelled from the spec: `BlendObsRefStack.by_object` (stubbed in the
source). -/
def BlendObsRefStack.by_object (s : BlendObsRefStack B E) :
    PyDict Nat (PyDict Nat E) :=
  byObjectOf s.obs_refs

/-- Modelled from the spec: `BlendObsDataStack.by_exposure` (stubbed in
the source). -/
def BlendObsDataStack.by_exposure (s : BlendObsDataStack B E) :
    PyDict Nat (PyDict Nat E) :=
  byExposureOf s.obs_data

/-- Modelled from the spec: `BlendObsDataStack.by_object` (stubbed in the
source). -/
def BlendObsDataStack.by_object (s : BlendObsDataStack B E) :
    PyDict Nat (PyDict Nat E) :=
  byObjectOf s.obs_data

/-!
Lazy load protocol.  Every `load()` body in the source is a
`raise NotImplementedError()` stub, so the definitions below are modelled
from spec section 4.1: the storage collaborator is a `fetch` function that
either produces the pixel buffers for a Reference or fails; a container
load loads every child and aborts whole on any child failure.
-/

/-- Modelled from the spec: the buffers the storage collaborator produces
for one successful `ObsRef.load()`. -/
structure LoadedBuffers (Img Msk Wgt Ps W Tr : Type) : Type where
  image : Img
  mask : Msk
  weight : Wgt
  psf : Ps
  wcs : W
  transmission : Tr

/-- Modelled from the spec: load every child of a container dict with
`f`; any child failure aborts the whole load with no partial result. -/
def loadAll (f : V → Option D) : PyDict K V → Option (PyDict K D)
  | [] => some []
  | (k, v) :: rest =>
    match f v, loadAll f rest with
    | some w, some ds => some ((k, w) :: ds)
    | _, _ => none

/-- Modelled from the spec: `ObsRef.load()` (stubbed in the source).  On
success the returned `ObsData` carries every buffer the collaborator
produced and the back-reference `ref` to this `ObsRef`. -/
def loadObsRef (fetch : ObsRef R P M W → Option (LoadedBuffers Img Msk Wgt Ps W Tr))
    (r : ObsRef R P M W) : Option (ObsData Img Msk Wgt Ps W Tr (ObsRef R P M W)) :=
  (fetch r).map (fun b =>
    mkObsData b.image (some b.mask) (some b.weight) (some b.psf) (some b.wcs)
      (some b.transmission) (none : Option Unit) (none : Option Unit) (some r))

/-- Modelled from the spec: `ObsRefStack.load()` (stubbed in the source). -/
def loadObsRefStack (fetch : ObsRef R P M W → Option (LoadedBuffers Img Msk Wgt Ps W Tr))
    (s : ObsRefStack OD (ObsRef R P M W)) :
    Option (ObsDataStack OD (ObsData Img Msk Wgt Ps W Tr (ObsRef R P M W))) :=
  (loadAll (loadObsRef fetch) s.obs_refs).map (fun ds => ⟨s.object_data, ds⟩)

/-- Modelled from the spec: `BlendObsRef.load()` (stubbed in the source).
The composite image, mask and weight of the returned `BlendObsData` come
from the storage collaborator as well (`fetchTop`); the per-object dict is
the loaded children.  All-or-nothing: any failure yields no result. -/
def loadBlendObsRef
    (fetchTop : BlendObsRef B R (ObsRef R P M W) → Option (Img × Msk × Wgt))
    (fetch : ObsRef R P M W → Option (LoadedBuffers Img Msk Wgt Ps W Tr))
    (br : BlendObsRef B R (ObsRef R P M W)) :
    Option (BlendObsData Img Msk Wgt R (BlendObsRef B R (ObsRef R P M W))
      (ObsData Img Msk Wgt Ps W Tr (ObsRef R P M W))) :=
  match fetchTop br, loadAll (loadObsRef fetch) br.obs_refs with
  | some t, some ds => some ⟨t.1, t.2.1, t.2.2, ds, br.region, some br⟩
  | _, _ => none

/-- Modelled from the spec: `BlendObsRefStack.load()` (stubbed in the
source). -/
def loadBlendObsRefStack
    (fetch : ObsRef R P M W → Option (LoadedBuffers Img Msk Wgt Ps W Tr))
    (s : BlendObsRefStack B (ObsRef R P M W)) :
    Option (BlendObsDataStack B (ObsData Img Msk Wgt Ps W Tr (ObsRef R P M W))) :=
  (loadAll (loadObsRef fetch) s.obs_refs).map (fun ds => ⟨s.blend_data, ds⟩)

/-!
Model output contract.  `Model.getSchema` and `Model.asDict` are abstract
(`raise NotImplementedError()` in the source); the spec states the
contract every concrete Model must satisfy, so the types below are
modelled from the spec.  `D` is the opaque numpy dtype type.
-/

/-- Modelled from the spec: the nested mapping of name to numpy dtype
returned by `Model.getSchema()`. -/
inductive SchemaTree (D : Type) : Type where
  | leaf (dtype : D) : SchemaTree D
  | node (children : List (String × SchemaTree D)) : SchemaTree D

/-- Modelled from the spec: the nested mapping of name to value returned
by `Model.asDict()`; each leaf value carries its runtime dtype. -/
inductive ValueTree (D : Type) : Type where
  | leaf (dtype : D) : ValueTree D
  | node (children : List (String × ValueTree D)) : ValueTree D

/-- Modelled from the spec: the contract between `asDict()` output and
`getSchema()` output.  At a node, every key present on one side is
present on the other (the key sets coincide), keys are unique as in a
Python dict, and matching children conform recursively; at a leaf, the
value dtype equals the schema dtype. -/
inductive Conforms : ValueTree D → SchemaTree D → Prop where
  | leaf (d : D) : Conforms (.leaf d) (.leaf d)
  | node (cs : PyDict String (ValueTree D)) (ss : PyDict String (SchemaTree D))
      (hnd : (PyDict.keys cs).Nodup)
      (hkeys : ∀ k, (PyDict.lookup cs k).isSome ↔ (PyDict.lookup ss k).isSome)
      (hsub : ∀ k v st, PyDict.lookup cs k = some v → PyDict.lookup ss k = some st →
        Conforms v st) :
      Conforms (.node cs) (.node ss)

mutual

/-- Executable check of the spec contract: the recursive procedure the
output-serialization collaborator runs over `asDict()` and `getSchema()`.
Checks key-set equality at every node and dtype equality at every leaf. -/
def conformsB [DecidableEq D] : ValueTree D → SchemaTree D → Bool
  | .leaf d, .leaf e => decide (d = e)
  | .node cs, .node ss =>
    ss.all (fun p => decide (p.1 ∈ PyDict.keys cs)) && conformsChildren cs ss
  | .leaf _, .node _ => false
  | .node _, .leaf _ => false

/-- Executable check that every `asDict()` child has a schema child of
the same name to which it conforms. -/
def conformsChildren [DecidableEq D] :
    PyDict String (ValueTree D) → PyDict String (SchemaTree D) → Bool
  | [], _ => true
  | (k, v) :: rest, ss =>
    (match PyDict.lookup ss k with
      | some st => conformsB v st
      | none => false) && conformsChildren rest ss

end

/-- Modelled from the spec: a Model as the output contract sees it, the
pair of its `getSchema()` and `asDict()` results together with the
contract the spec imposes on every concrete Model. -/
structure ModelContract (D : Type) : Type where
  schema : SchemaTree D
  value : ValueTree D
  contract : Conforms value schema

/-- The `Model.getSchema()` result of a contract-satisfying Model. -/
def ModelContract.getSchema (m : ModelContract D) : SchemaTree D := m.schema

/-- The `Model.asDict()` result of a contract-satisfying Model. -/
def ModelContract.asDict (m : ModelContract D) : ValueTree D := m.value

/-!
Fitter contract (algorithms.py).  `Fitter.processBlend` is abstract; the
spec confines a Fitter to attaching Models into object-level,
observation-level and PSF registries and forbids any pixel mutation, so a
Fitter execution is modelled from the spec as a sequence of registry
writes applied to the pipeline state.
-/

/-- Modelled from the spec: one registry write a Fitter may perform while
processing a blend. -/
inductive FitterAction (M : Type) : Type where
  | attachObjectModel (object_id : Nat) (algorithm : String) (m : M) : FitterAction M
  | attachObsModel (object_id exposure_id : Nat) (algorithm : String) (m : M) :
      FitterAction M
  | attachPsfModel (object_id exposure_id : Nat) (algorithm : String) (m : M) :
      FitterAction M

/-- The image, mask and weight buffers of one `ObsData`. -/
structure PixelBuffers (Img Msk Wgt : Type) : Type where
  image : Img
  mask : Msk
  weight : Wgt

/-- Modelled from the spec: the mutable state a Fitter call can reach:
the pixel buffers of every `ObsData` of the input stack, and the Model
registries of the objects, observations and PSFs, each keyed as in the
Reference hierarchy. -/
structure PipelineState (Img Msk Wgt M : Type) : Type where
  pixels : PyDict (Nat × Nat) (PixelBuffers Img Msk Wgt)
  objectModels : PyDict Nat (PyDict String M)
  obsModels : PyDict (Nat × Nat) (PyDict String M)
  psfModels : PyDict (Nat × Nat) (PyDict String M)

/-- Modelled from the spec: the effect of one Fitter registry write. -/
def applyFitterAction (s : PipelineState Img Msk Wgt M) :
    FitterAction M → PipelineState Img Msk Wgt M
  | .attachObjectModel o a m =>
    { s with objectModels :=
        s.objectModels.set o ((((s.objectModels.lookup o).getD [])).set a m) }
  | .attachObsModel o e a m =>
    { s with obsModels :=
        s.obsModels.set (o, e) ((((s.obsModels.lookup (o, e)).getD [])).set a m) }
  | .attachPsfModel o e a m =>
    { s with psfModels :=
        s.psfModels.set (o, e) ((((s.psfModels.lookup (o, e)).getD [])).set a m) }

/-- Modelled from the spec: a `Fitter.processBlend` execution, a sequence
of registry writes applied in order.  A call that fails part-way has
performed the writes of some prefix, which is itself such a sequence. -/
def processBlendF (acts : List (FitterAction M)) (s : PipelineState Img Msk Wgt M) :
    PipelineState Img Msk Wgt M :=
  acts.foldl applyFitterAction s

/-!
Deblender neighbor state machine (algorithms.py, spec sections 4.4, 7 and
9).  `Deblender.processStack` is abstract; the spec describes the steps a
Deblender may perform and requires the Present-to-Subtracted transition of
a neighbor to happen only as a side effect of a pixel mutation that
removed its flux, rejected otherwise at the point of mutation.  The trace
semantics below is modelled from the spec.
-/

/-- Modelled from the spec: one step of a `Deblender.processStack` call.
`mutatePixels` subtracts from the pixels of `(object_id, exposure_id)`
the flux of the neighbors listed in `removed`; `markSubtracted` deletes a
neighbor from the `neighbors` dict of the `ObsRef` of
`(object_id, exposure_id)`; mask writes and Model attachment do not touch
neighbor state. -/
inductive DebStep : Type where
  | mutatePixels (object_id exposure_id : Nat) (removed : List Nat) : DebStep
  | markSubtracted (object_id exposure_id neighbor_id : Nat) : DebStep
  | setMaskBits (object_id exposure_id : Nat) : DebStep
  | attachModel (object_id exposure_id : Nat) (algorithm : String) : DebStep
deriving DecidableEq

/-- Modelled from the spec: the neighbor-presence state of one
`processStack` call: per `(object_id, exposure_id)`, the keys of the
`neighbors` dict still Present, and the neighbors whose flux a pixel
mutation of that observation has removed so far. -/
structure DebState : Type where
  neighborsOf : PyDict (Nat × Nat) (List Nat)
  mutatedFor : PyDict (Nat × Nat) (List Nat)
deriving DecidableEq

/-- Present neighbors of one `(object_id, exposure_id)`. -/
def getNb (s : DebState) (k : Nat × Nat) : List Nat :=
  (s.neighborsOf.lookup k).getD []

/-- Neighbors whose flux removal has been recorded for one observation. -/
def getMut (s : DebState) (k : Nat × Nat) : List Nat :=
  (s.mutatedFor.lookup k).getD []

/-- Modelled from the spec: the effect of one Deblender step.  A
`markSubtracted` without a recorded flux removal is the
NeighborInconsistency error of spec section 7, rejected at the point of
mutation. -/
def debStep (s : DebState) : DebStep → Option DebState
  | .mutatePixels o e removed =>
    some { s with mutatedFor := s.mutatedFor.set (o, e) (removed ++ getMut s (o, e)) }
  | .markSubtracted o e n =>
    if n ∈ getMut s (o, e) then
      some { s with neighborsOf :=
        s.neighborsOf.set (o, e) ((getNb s (o, e)).filter (fun x => decide (x ≠ n))) }
    else none
  | .setMaskBits _ _ => some s
  | .attachModel _ _ _ => some s

/-- Modelled from the spec: a `Deblender.processStack` call as the run of
its steps, aborting at the first rejected step. -/
def runDeb (s : DebState) : List DebStep → Option DebState
  | [] => some s
  | st :: rest =>
    match debStep s st with
    | some t => runDeb t rest
    | none => none

/-- The state at the start of a `processStack` call: the `neighbors`
dicts of the Reference hierarchy, and no pixel mutation yet. -/
def initDeb (nb : PyDict (Nat × Nat) (List Nat)) : DebState :=
  ⟨nb, []⟩

/-!
SingleExposureDeblender (algorithms.py).  Its `processStack` body is a
TODO stub; spec section 4.4: it decomposes the stack by exposure via
`by_exposure`, invokes `processExposure` on each exposure independently,
and reassembles the per-exposure results into the full Data stack.
-/

/-- Modelled from the spec: `SingleExposureDeblender.processStack`
(stubbed in the source).  `processExposure` receives one exposure id with
the inner mapping of its `BlendObsRef` and yields the inner mapping of
the `BlendObsData` it returns. -/
def processStackSE (processExposure : Nat → PyDict Nat E → PyDict Nat F)
    (s : BlendObsRefStack B E) : BlendObsDataStack B F :=
  ⟨s.blend_data,
    flattenByExposure ((s.by_exposure).map (fun p => (p.1, processExposure p.1 p.2)))⟩

/-!
Heap model for the constructor copy semantics.  Python `dict(arg)`
allocates a fresh dict holding the contents the argument has at call
time; mutating the argument afterwards must not change the copy.  The
store maps references (allocated below `next`) to dict contents; each
embedded constructor below performs exactly the `dict(...)` copy its
source line performs.
-/

/-- A heap of Python dicts with keys `K` and values `V`: contents per
reference, and the next fresh reference. -/
structure Store (K V : Type) : Type where
  mem : Nat → PyDict K V
  next : Nat

/-- In-place mutation of the dict at reference `r` (subscript assignment,
`update`, `del` on the caller side). -/
def Store.write (st : Store K V) (r : Nat) (d : PyDict K V) : Store K V :=
  { st with mem := fun a => if a = r then d else st.mem a }

/-- Allocation of a fresh dict with contents `d`. -/
def Store.alloc (st : Store K V) (d : PyDict K V) : Nat × Store K V :=
  (st.next,
    { mem := fun a => if a = st.next then d else st.mem a, next := st.next + 1 })

/-- Python `dict(arg)`: read the contents of the caller's dict and
allocate a fresh dict holding them. -/
def dictCopy (st : Store K V) (src : Nat) : Nat × Store K V :=
  st.alloc (st.mem src)

/-- Heap view of `BlendData`: the `_object_data` field holds a reference
to the private dict the constructor allocated. -/
structure BlendDataHp (R : Type) : Type where
  sky_region : R
  object_data : Nat

/-- Embedding of `BlendData.__init__` against the heap:
`self._object_data = dict(object_data)`. -/
def mkBlendDataHp (st : Store Nat V) (sky_region : R) (object_data : Nat) :
    BlendDataHp R × Store Nat V :=
  ((⟨sky_region, (dictCopy st object_data).1⟩ : BlendDataHp R),
    (dictCopy st object_data).2)

/-- The contents of the private `_object_data` dict of a heap
`BlendData`, as read in a given store. -/
def BlendDataHp.objectDataIn (b : BlendDataHp R) (st : Store Nat V) : PyDict Nat V :=
  st.mem b.object_data

/-- Heap view of `ObsRef`: the `neighbors` field holds a reference to the
dict the constructor stored. -/
structure ObsRefHp (R P M W : Type) : Type where
  object_data : ObjectData R P M
  exposure_id : Nat
  is_coadd : Bool
  filter_name : String
  wcs : W
  neighbors : Nat
  region : Option R

/-- Embedding of `ObsRef.__init__` against the heap:
`self.neighbors = dict(neighbors) if neighbors is not None else dict()`. -/
def mkObsRefHp (st : Store Nat V) (object_data : ObjectData R P M)
    (exposure_id : Nat) (is_coadd : Bool) (filter_name : String) (wcs : W)
    (neighbors : Option Nat) (region : Option R) :
    ObsRefHp R P M W × Store Nat V :=
  match neighbors with
  | some a =>
    (⟨object_data, exposure_id, is_coadd, filter_name, wcs, (dictCopy st a).1, region⟩,
      (dictCopy st a).2)
  | none =>
    (⟨object_data, exposure_id, is_coadd, filter_name, wcs, (st.alloc []).1, region⟩,
      (st.alloc []).2)

/-- The contents of the `neighbors` dict of a heap `ObsRef`. -/
def ObsRefHp.neighborsIn (r : ObsRefHp R P M W) (st : Store Nat V) : PyDict Nat V :=
  st.mem r.neighbors

/-- Heap view of `BlendObsRefStack`: `_obs_refs` holds a reference. -/
structure BlendObsRefStackHp (B : Type) : Type where
  blend_data : B
  obs_refs : Nat

/-- Embedding of `BlendObsRefStack.__init__` against the heap:
`self._obs_refs = dict(obs_refs)`. -/
def mkBlendObsRefStackHp (st : Store (Nat × Nat) V) (blend_data : B)
    (obs_refs : Nat) : BlendObsRefStackHp B × Store (Nat × Nat) V :=
  ((⟨blend_data, (dictCopy st obs_refs).1⟩ : BlendObsRefStackHp B),
    (dictCopy st obs_refs).2)

/-- The contents of the private `_obs_refs` dict of a heap stack. -/
def BlendObsRefStackHp.obsRefsIn (s : BlendObsRefStackHp B)
    (st : Store (Nat × Nat) V) : PyDict (Nat × Nat) V :=
  st.mem s.obs_refs

/-- Heap view of `BlendObsDataStack`: `_obs_data` holds a reference. -/
structure BlendObsDataStackHp (B : Type) : Type where
  blend_data : B
  obs_data : Nat

/-- Embedding of `BlendObsDataStack.__init__` against the heap:
`self._obs_data = dict(obs_data)`. -/
def mkBlendObsDataStackHp (st : Store (Nat × Nat) V) (blend_data : B)
    (obs_data : Nat) : BlendObsDataStackHp B × Store (Nat × Nat) V :=
  ((⟨blend_data, (dictCopy st obs_data).1⟩ : BlendObsDataStackHp B),
    (dictCopy st obs_data).2)

/-- The contents of the private `_obs_data` dict of a heap Data stack. -/
def BlendObsDataStackHp.obsDataIn (s : BlendObsDataStackHp B)
    (st : Store (Nat × Nat) V) : PyDict (Nat × Nat) V :=
  st.mem s.obs_data

/-- Heap view of `BlendObsRef`: the private `_obs_refs` field holds a
reference to the dict the constructor allocated. -/
structure BlendObsRefHp (B R : Type) : Type where
  blend_data : B
  exposure_id : Nat
  is_coadd : Bool
  filter_name : String
  obs_refs : Nat
  region : Option R

/-- Embedding of `BlendObsRef.__init__` against the heap:
`self._obs_refs = dict(obs_refs)`. -/
def mkBlendObsRefHp (st : Store Nat V) (blend_data : B) (exposure_id : Nat)
    (is_coadd : Bool) (filter_name : String) (obs_refs : Nat) (region : Option R) :
    BlendObsRefHp B R × Store Nat V :=
  ((⟨blend_data, exposure_id, is_coadd, filter_name, (dictCopy st obs_refs).1,
      region⟩ : BlendObsRefHp B R),
    (dictCopy st obs_refs).2)

/-- The contents of the private `_obs_refs` dict of a heap
`BlendObsRef`. -/
def BlendObsRefHp.obsRefsIn (b : BlendObsRefHp B R) (st : Store Nat V) :
    PyDict Nat V :=
  st.mem b.obs_refs

/-- Heap view of `BlendObsData`: the private `_obs_data` field holds a
reference to the dict the constructor allocated. -/
structure BlendObsDataHp (Img Msk Wgt R Rf : Type) : Type where
  image : Img
  mask : Msk
  weight : Wgt
  obs_data : Nat
  region : Option R
  ref : Option Rf

/-- Embedding of `BlendObsData.__init__` against the heap:
`self._obs_data = dict(obs_data)`. -/
def mkBlendObsDataHp (st : Store Nat V) (image : Img) (mask : Msk) (weight : Wgt)
    (obs_data : Nat) (region : Option R) (ref : Option Rf) :
    BlendObsDataHp Img Msk Wgt R Rf × Store Nat V :=
  (⟨image, mask, weight, (dictCopy st obs_data).1, region, ref⟩,
    (dictCopy st obs_data).2)

/-- The contents of the private `_obs_data` dict of a heap
`BlendObsData`. -/
def BlendObsDataHp.obsDataIn (b : BlendObsDataHp Img Msk Wgt R Rf)
    (st : Store Nat V) : PyDict Nat V :=
  st.mem b.obs_data

/-- Heap view of `ObsRefStack`: the private `_obs_refs` field holds a
reference to the dict the constructor allocated. -/
structure ObsRefStackHp (OD : Type) : Type where
  object_data : OD
  obs_refs : Nat

/-- Embedding of `ObsRefStack.__init__` against the heap:
`self._obs_refs = dict(obs_refs)`. -/
def mkObsRefStackHp (st : Store Nat V) (object_data : OD) (obs_refs : Nat) :
    ObsRefStackHp OD × Store Nat V :=
  ((⟨object_data, (dictCopy st obs_refs).1⟩ : ObsRefStackHp OD),
    (dictCopy st obs_refs).2)

/-- The contents of the private `_obs_refs` dict of a heap
`ObsRefStack`. -/
def ObsRefStackHp.obsRefsIn (s : ObsRefStackHp OD) (st : Store Nat V) :
    PyDict Nat V :=
  st.mem s.obs_refs

/-- Heap view of `ObsDataStack`: the private `_obs_data` field holds a
reference to the dict the constructor allocated. -/
structure ObsDataStackHp (OD : Type) : Type where
  object_data : OD
  obs_data : Nat

/-- Embedding of `ObsDataStack.__init__` against the heap:
`self._obs_data = dict(obs_data)`. -/
def mkObsDataStackHp (st : Store Nat V) (object_data : OD) (obs_data : Nat) :
    ObsDataStackHp OD × Store Nat V :=
  ((⟨object_data, (dictCopy st obs_data).1⟩ : ObsDataStackHp OD),
    (dictCopy st obs_data).2)

/-- The contents of the private `_obs_data` dict of a heap
`ObsDataStack`. -/
def ObsDataStackHp.obsDataIn (s : ObsDataStackHp OD) (st : Store Nat V) :
    PyDict Nat V :=
  st.mem s.obs_data

/-!
Concrete instances used by witnesses: a 2-object (ids 1, 2), 2-exposure
(ids 1, 2) blend, with numbered stand-ins for the opaque entry types.
-/

/-- A concrete 2-by-2 `BlendObsRefStack`. -/
def refStack22 : BlendObsRefStack Unit Nat :=
  mkBlendObsRefStack () [((1, 1), 10), ((1, 2), 11), ((2, 1), 12), ((2, 2), 13)]

/-- A concrete 2-by-2 `BlendObsDataStack`. -/
def dataStack22 : BlendObsDataStack Unit Nat :=
  mkBlendObsDataStack () [((1, 1), 20), ((1, 2), 21), ((2, 1), 22), ((2, 2), 23)]

/-- A concrete `ObsRef` whose `neighbors` constructor argument contains
the id of its own owning `ObjectData` (id 1). -/
def selfNeighborRef : ObsRef Unit Unit Nat Unit :=
  mkObsRef (mkObjectData 1 () ()) 2 false ("") ()
    (some [(1, mkObsRef (mkObjectData 3 () ()) 2 false ("") () none none)]) none

/-- A concrete `ObjectData` with one prior registry entry. -/
def fluxObject : ObjectData Unit Unit Nat :=
  (mkObjectData 1 () ()).attachModel ("flux") 5

/-- A concrete `ObsRef` with one prior registry entry. -/
def fluxObsRef : ObsRef Unit Unit Nat Unit :=
  (mkObsRef (mkObjectData 2 () ()) 1 false ("") () none none).attachModel ("flux") 7

/-- A concrete `PSF` with one prior registry entry. -/
def fluxPsf : PSF Nat :=
  PSF.attachModel mkPSF ("flux") 9

/-- A concrete neighbors dict that does not mention object id 1. -/
def okNeighborDict : PyDict Nat (ObsRef Unit Unit Nat Unit) :=
  [(2, mkObsRef (mkObjectData 3 () ()) 2 false ("") () none none)]

/-- A concrete one-dict heap with `Nat` keys. -/
def heapStoreNat : Store Nat Nat :=
  ⟨fun r => if r = 0 then [(1, 10)] else [], 1⟩

/-- A concrete one-dict heap with pair keys. -/
def heapStorePair : Store (Nat × Nat) Nat :=
  ⟨fun r => if r = 0 then [((1, 1), 10)] else [], 1⟩

/-- A concrete storage collaborator that always produces buffers. -/
def fetchConst : ObsRef Unit Unit Nat Unit →
    Option (LoadedBuffers Nat Nat Nat Nat Unit Nat) :=
  fun _ => some ⟨1, 2, 3, 4, (), 6⟩

/-- A concrete `ObsRef` with no neighbors. -/
def plainObsRef : ObsRef Unit Unit Nat Unit :=
  mkObsRef (mkObjectData 4 () ()) 5 false ("") () none none

/-- A concrete one-exposure `ObsRefStack`. -/
def plainObsRefStack : ObsRefStack Unit (ObsRef Unit Unit Nat Unit) :=
  ⟨(), [(5, plainObsRef)]⟩

/-- The `ObsData` that `fetchConst` loads for `plainObsRef`. -/
def plainObsData : ObsData Nat Nat Nat Nat Unit Nat (ObsRef Unit Unit Nat Unit) :=
  mkObsData 1 (some 2) (some 3) (some 4) (some ()) (some 6) (none : Option Unit)
    (none : Option Unit) (some plainObsRef)

/-- The `ObsDataStack` that `fetchConst` loads for `plainObsRefStack`. -/
def plainObsDataStack :
    ObsDataStack Unit (ObsData Nat Nat Nat Nat Unit Nat (ObsRef Unit Unit Nat Unit)) :=
  ⟨(), [(5, plainObsData)]⟩

/-- A concrete initial neighbor state: object 1 in exposure 1 has the
single neighbor 2. -/
def debStartNb : PyDict (Nat × Nat) (List Nat) := [((1, 1), [2])]

/-- A concrete Deblender trace prefix that subtracts the flux of
neighbor 2. -/
def debTrace1 : List DebStep := [DebStep.mutatePixels 1 1 [2]]

/-- A concrete Deblender trace suffix that marks neighbor 2
Subtracted. -/
def debTrace2 : List DebStep := [DebStep.markSubtracted 1 1 2]

/-- The deblend state after `debTrace1`. -/
def debMid : DebState := ⟨[((1, 1), [2])], [((1, 1), [2])]⟩

/-- The deblend state after `debTrace1 ++ debTrace2`. -/
def debEnd : DebState := ⟨[((1, 1), [])], [((1, 1), [2])]⟩

/-- A concrete per-exposure deblend body: it rewrites every entry of its
exposure in place, preserving the key set. -/
def addHundred : Nat → PyDict Nat Nat → PyDict Nat Nat :=
  fun _ m => m.map (fun q => (q.1, q.2 + 100))

namespace PyDict

variable {K V : Type}

theorem lookup_eq_none_iff [DecidableEq K] (d : PyDict K V) (k : K) :
    d.lookup k = none ↔ k ∉ d.keys := by
  induction d with
  | nil => simp [lookup, keys]
  | cons p rest ih =>
    obtain ⟨a, w⟩ := p
    by_cases hak : a = k
    · subst hak
      simp [lookup, keys]
    · have hka : ¬ k = a := fun e => hak e.symm
      simp only [lookup, if_neg hak, keys, List.map_cons, List.mem_cons, not_or]
      simp only [keys] at ih
      rw [ih]
      exact ⟨fun hk => ⟨hka, hk⟩, fun hk => hk.2⟩

theorem mem_of_lookup_eq_some [DecidableEq K] {d : PyDict K V} {k : K} {v : V}
    (h : d.lookup k = some v) : (k, v) ∈ d := by
  induction d with
  | nil => simp [lookup] at h
  | cons p rest ih =>
    obtain ⟨a, w⟩ := p
    by_cases hak : a = k
    · subst hak
      simp [lookup] at h
      simp [h]
    · simp [lookup, hak] at h
      exact List.mem_cons_of_mem _ (ih h)

theorem lookup_eq_some_of_mem [DecidableEq K] {d : PyDict K V} (hnd : d.keys.Nodup)
    {k : K} {v : V} (h : (k, v) ∈ d) : d.lookup k = some v := by
  induction d with
  | nil => simp at h
  | cons p rest ih =>
    obtain ⟨a, w⟩ := p
    simp only [keys, List.map_cons, List.nodup_cons] at hnd
    rcases List.mem_cons.mp h with h | h
    · injection h with h1 h2
      subst h1
      subst h2
      simp [lookup]
    · by_cases hak : a = k
      · subst hak
        exact absurd (List.mem_map.mpr ⟨(a, v), h, rfl⟩) hnd.1
      · simp only [lookup, if_neg hak]
        exact ih (by simpa [keys] using hnd.2) h

theorem lookup_eq_of_perm [DecidableEq K] {d₁ d₂ : PyDict K V} (hnd : d₁.keys.Nodup)
    (hp : List.Perm d₁ d₂) (k : K) : d₁.lookup k = d₂.lookup k := by
  have hnd₂ : d₂.keys.Nodup := ((hp.map Prod.fst).nodup_iff).mp hnd
  cases hc : d₁.lookup k with
  | none =>
    have hk : k ∉ d₁.keys := (lookup_eq_none_iff d₁ k).mp hc
    have hk₂ : k ∉ d₂.keys := fun hm =>
      hk (((hp.map Prod.fst).mem_iff).mpr hm)
    exact ((lookup_eq_none_iff d₂ k).mpr hk₂).symm
  | some v =>
    exact (lookup_eq_some_of_mem hnd₂ (hp.mem_iff.mp (mem_of_lookup_eq_some hc))).symm

theorem lookup_set_self [DecidableEq K] (d : PyDict K V) (k : K) (v : V) :
    (d.set k v).lookup k = some v := by
  induction d with
  | nil => simp [set, lookup]
  | cons p rest ih =>
    obtain ⟨a, w⟩ := p
    by_cases hak : a = k
    · simp [set, hak, lookup]
    · simp [set, hak, lookup, ih]

theorem lookup_set_ne [DecidableEq K] (d : PyDict K V) {k a : K} (v : V) (h : a ≠ k) :
    (d.set k v).lookup a = d.lookup a := by
  have hka : ¬ k = a := fun e => h e.symm
  induction d with
  | nil => simp [set, lookup, hka]
  | cons p rest ih =>
    obtain ⟨b, w⟩ := p
    by_cases hbk : b = k
    · subst hbk
      simp [set, lookup, hka]
    · simp [set, hbk, lookup, ih]

theorem set_set_same [DecidableEq K] (d : PyDict K V) (k : K) (v₁ v₂ : V) :
    (d.set k v₁).set k v₂ = d.set k v₂ := by
  induction d with
  | nil => simp [set]
  | cons p rest ih =>
    obtain ⟨a, w⟩ := p
    by_cases hak : a = k
    · simp [set, hak]
    · simp [set, hak, ih]

theorem count_keys_set [DecidableEq K] {d : PyDict K V} (hnd : d.keys.Nodup) (k : K) (v : V) :
    ((d.set k v).keys).count k = 1 := by
  induction d with
  | nil => simp [set, keys]
  | cons p rest ih =>
    obtain ⟨a, w⟩ := p
    simp only [keys, List.map_cons, List.nodup_cons] at hnd
    by_cases hak : a = k
    · subst hak
      have h0 : List.count a (List.map Prod.fst rest) = 0 := List.count_eq_zero.mpr hnd.1
      simp [set, keys, List.count_cons, h0]
    · have hka : ¬ k = a := fun e => hak e.symm
      have ihv := ih (by simpa [keys] using hnd.2)
      simp only [keys] at ihv
      simp [set, hak, keys, List.count_cons, beq_iff_eq, hka, ihv]

theorem keys_erase_subset [DecidableEq K] (d : PyDict K V) (k : K) :
    (d.erase k).keys ⊆ d.keys := by
  induction d with
  | nil => simp [erase]
  | cons p rest ih =>
    obtain ⟨a, w⟩ := p
    by_cases hak : a = k
    · simp only [erase, hak, if_pos rfl]
      exact fun x hx => List.mem_cons_of_mem _ (ih hx)
    · simp only [erase, if_neg hak, keys, List.map_cons]
      intro x hx
      rcases List.mem_cons.mp hx with h | h
      · exact h ▸ List.mem_cons_self _ _
      · exact List.mem_cons_of_mem _ (ih h)

theorem lookup_isSome_iff_mem_keys [DecidableEq K] (d : PyDict K V) (k : K) :
    (d.lookup k).isSome ↔ k ∈ d.keys := by
  rw [Option.isSome_iff_ne_none, not_iff_comm, lookup_eq_none_iff]

theorem lookup_isSome_of_mem [DecidableEq K] {d : PyDict K V} {k : K} {v : V}
    (h : (k, v) ∈ d) : (d.lookup k).isSome :=
  (lookup_isSome_iff_mem_keys d k).mpr (List.mem_map_of_mem Prod.fst h)

end PyDict

/-- Pointwise-identity maps leave a list unchanged. -/
theorem map_eq_self_of_mem {α : Type} {l : List α} {f : α → α}
    (h : ∀ a ∈ l, f a = a) : l.map f = l :=
  (List.map_congr_left h).trans (List.map_id l)

/-- Partitioning a list by the distinct values of a key function and
concatenating the groups permutes the list. -/
theorem flatten_groups_perm {α κ : Type} [DecidableEq κ] (g : α → κ) :
    ∀ (es : List κ) (l : List α), es.Nodup → (∀ a ∈ l, g a ∈ es) →
      List.Perm ((es.map (fun e => l.filter (fun a => decide (g a = e)))).flatten) l := by
  intro es
  induction es with
  | nil =>
    intro l _ hall
    cases l with
    | nil => simp
    | cons x xs => exact absurd (hall x (List.mem_cons_self x xs)) (by simp)
  | cons e es ih =>
    intro l hnd hall
    rw [List.map_cons, List.flatten_cons]
    have hne : e ∉ es := (List.nodup_cons.mp hnd).1
    have hnd' : es.Nodup := (List.nodup_cons.mp hnd).2
    have hsplit := List.filter_append_perm (fun a => decide (g a = e)) l
    have hfe : es.map (fun e2 => l.filter (fun a => decide (g a = e2)))
        = es.map (fun e2 =>
            (l.filter (fun a => !decide (g a = e))).filter
              (fun a => decide (g a = e2))) := by
      refine List.map_congr_left ?_
      intro e2 he2
      rw [List.filter_filter]
      refine List.filter_congr ?_
      intro a _
      by_cases hg : g a = e2
      · have he2e : ¬ e2 = e := fun hEq => hne (hEq ▸ he2)
        have hgne : ¬ g a = e := fun hgE => he2e (hg ▸ hgE)
        simp [hg, hgne, he2e]
      · simp [hg]
    have hall' : ∀ a ∈ l.filter (fun a => !decide (g a = e)), g a ∈ es := by
      intro a ha
      have hmem := List.mem_filter.mp ha
      have hgne : ¬ g a = e := by simpa using hmem.2
      rcases List.mem_cons.mp (hall a hmem.1) with h | h
      · exact absurd h hgne
      · exact h
    have ihp := ih (l.filter (fun a => !decide (g a = e))) hnd' hall'
    rw [hfe]
    exact ((ihp.append_left (l.filter (fun a => decide (g a = e)))).trans hsplit)

/-- Re-attaching the exposure id to a `by_exposure` inner mapping
recovers exactly the entries of that exposure. -/
theorem sliceByExposure_expand (flat : PyDict (Nat × Nat) E) (e : Nat) :
    (sliceByExposure flat e).map (fun q => ((q.1, e), q.2))
      = flat.filter (fun p => decide (p.1.2 = e)) := by
  rw [sliceByExposure, List.map_map]
  refine map_eq_self_of_mem ?_
  intro p hp
  have h2 : p.1.2 = e := by simpa using (List.mem_filter.mp hp).2
  simp [Function.comp, ← h2]

/-- Re-attaching the object id to a `by_object` inner mapping recovers
exactly the entries of that object. -/
theorem sliceByObject_expand (flat : PyDict (Nat × Nat) E) (o : Nat) :
    (sliceByObject flat o).map (fun q => ((o, q.1), q.2))
      = flat.filter (fun p => decide (p.1.1 = o)) := by
  rw [sliceByObject, List.map_map]
  refine map_eq_self_of_mem ?_
  intro p hp
  have h2 : p.1.1 = o := by simpa using (List.mem_filter.mp hp).2
  simp [Function.comp, ← h2]

/-- Re-flattening the `by_exposure` view gives the groups-by-exposure
concatenation of the flat mapping. -/
theorem flattenByExposure_byExposureOf (flat : PyDict (Nat × Nat) E) :
    flattenByExposure (byExposureOf flat)
      = ((exposureIds flat).map
          (fun e => flat.filter (fun p => decide (p.1.2 = e)))).flatten := by
  rw [flattenByExposure, byExposureOf, List.map_map]
  congr 1
  refine List.map_congr_left ?_
  intro e _
  exact sliceByExposure_expand flat e

/-- Re-flattening the `by_object` view gives the groups-by-object
concatenation of the flat mapping. -/
theorem flattenByObject_byObjectOf (flat : PyDict (Nat × Nat) E) :
    flattenByObject (byObjectOf flat)
      = ((objectIds flat).map
          (fun o => flat.filter (fun p => decide (p.1.1 = o)))).flatten := by
  rw [flattenByObject, byObjectOf, List.map_map]
  congr 1
  refine List.map_congr_left ?_
  intro o _
  exact sliceByObject_expand flat o

/-- Re-flattening the `by_exposure` view permutes the flat mapping. -/
theorem flattenByExposure_perm (flat : PyDict (Nat × Nat) E) :
    List.Perm (flattenByExposure (byExposureOf flat)) flat := by
  rw [flattenByExposure_byExposureOf]
  exact flatten_groups_perm (fun p => p.1.2) (exposureIds flat) flat
    (List.nodup_dedup _) (fun a ha => List.mem_dedup.mpr (List.mem_map_of_mem _ ha))

/-- Re-flattening the `by_object` view permutes the flat mapping. -/
theorem flattenByObject_perm (flat : PyDict (Nat × Nat) E) :
    List.Perm (flattenByObject (byObjectOf flat)) flat := by
  rw [flattenByObject_byObjectOf]
  exact flatten_groups_perm (fun p => p.1.1) (objectIds flat) flat
    (List.nodup_dedup _) (fun a ha => List.mem_dedup.mpr (List.mem_map_of_mem _ ha))

/-- The length of a re-flattened `by_exposure` view is the sum of the
inner mapping sizes. -/
theorem length_flattenByExposure (v : PyDict Nat (PyDict Nat E)) :
    (flattenByExposure v).length = (v.map (fun p => PyDict.size p.2)).sum := by
  rw [flattenByExposure, List.length_flatten, List.map_map]
  congr 1
  refine List.map_congr_left ?_
  intro p _
  simp [Function.comp, PyDict.size]

/-- The length of a re-flattened `by_object` view is the sum of the
inner mapping sizes. -/
theorem length_flattenByObject (v : PyDict Nat (PyDict Nat E)) :
    (flattenByObject v).length = (v.map (fun p => PyDict.size p.2)).sum := by
  rw [flattenByObject, List.length_flatten, List.map_map]
  congr 1
  refine List.map_congr_left ?_
  intro p _
  simp [Function.comp, PyDict.size]

/-- Both views of a flat stack mapping with distinct keys are lossless:
inner sizes sum to the flat size, and re-flattening reproduces the
mapping key-for-key and entry-for-entry. -/
theorem views_lossless_flat {E : Type} (flat : PyDict (Nat × Nat) E)
    (h : (PyDict.keys flat).Nodup) :
    ((byExposureOf flat).map (fun p => PyDict.size p.2)).sum = PyDict.size flat
    ∧ ((byObjectOf flat).map (fun p => PyDict.size p.2)).sum = PyDict.size flat
    ∧ (∀ k, PyDict.lookup (flattenByExposure (byExposureOf flat)) k
        = PyDict.lookup flat k)
    ∧ (∀ k, PyDict.lookup (flattenByObject (byObjectOf flat)) k
        = PyDict.lookup flat k)
    ∧ (∀ k, k ∈ PyDict.keys (flattenByExposure (byExposureOf flat))
        ↔ k ∈ PyDict.keys flat)
    ∧ (∀ k, k ∈ PyDict.keys (flattenByObject (byObjectOf flat))
        ↔ k ∈ PyDict.keys flat) := by
  have hpe := flattenByExposure_perm flat
  have hpo := flattenByObject_perm flat
  have hnde : (PyDict.keys (flattenByExposure (byExposureOf flat))).Nodup :=
    ((hpe.map Prod.fst).nodup_iff).mpr h
  have hndo : (PyDict.keys (flattenByObject (byObjectOf flat))).Nodup :=
    ((hpo.map Prod.fst).nodup_iff).mpr h
  refine ⟨?_, ?_, ?_, ?_, ?_, ?_⟩
  · exact (length_flattenByExposure (byExposureOf flat)).symm.trans hpe.length_eq
  · exact (length_flattenByObject (byObjectOf flat)).symm.trans hpo.length_eq
  · exact fun k => PyDict.lookup_eq_of_perm hnde hpe k
  · exact fun k => PyDict.lookup_eq_of_perm hndo hpo k
  · exact fun k => (hpe.map Prod.fst).mem_iff
  · exact fun k => (hpo.map Prod.fst).mem_iff

/-- Claim C1: for every `BlendObsRefStack` and `BlendObsDataStack` (whose
flat mapping, a Python dict, has distinct keys), the `by_exposure` and
`by_object` views are lossless bijections of the flat
`(object_id, exposure_id)` mapping: inner sizes sum to the flat size on
both views, and re-flattening either view reproduces the original mapping
exactly, with the same keys and the same entries. -/
theorem claim_c1_views_lossless {B E B2 E2 : Type}
    (s : BlendObsRefStack B E) (t : BlendObsDataStack B2 E2)
    (hs : (PyDict.keys s.obs_refs).Nodup) (ht : (PyDict.keys t.obs_data).Nodup) :
    (((s.by_exposure).map (fun p => PyDict.size p.2)).sum = PyDict.size s.obs_refs
      ∧ ((s.by_object).map (fun p => PyDict.size p.2)).sum = PyDict.size s.obs_refs
      ∧ (∀ k, PyDict.lookup (flattenByExposure s.by_exposure) k
          = PyDict.lookup s.obs_refs k)
      ∧ (∀ k, PyDict.lookup (flattenByObject s.by_object) k
          = PyDict.lookup s.obs_refs k)
      ∧ (∀ k, k ∈ PyDict.keys (flattenByExposure s.by_exposure)
          ↔ k ∈ PyDict.keys s.obs_refs)
      ∧ (∀ k, k ∈ PyDict.keys (flattenByObject s.by_object)
          ↔ k ∈ PyDict.keys s.obs_refs))
    ∧ (((t.by_exposure).map (fun p => PyDict.size p.2)).sum = PyDict.size t.obs_data
      ∧ ((t.by_object).map (fun p => PyDict.size p.2)).sum = PyDict.size t.obs_data
      ∧ (∀ k, PyDict.lookup (flattenByExposure t.by_exposure) k
          = PyDict.lookup t.obs_data k)
      ∧ (∀ k, PyDict.lookup (flattenByObject t.by_object) k
          = PyDict.lookup t.obs_data k)
      ∧ (∀ k, k ∈ PyDict.keys (flattenByExposure t.by_exposure)
          ↔ k ∈ PyDict.keys t.obs_data)
      ∧ (∀ k, k ∈ PyDict.keys (flattenByObject t.by_object)
          ↔ k ∈ PyDict.keys t.obs_data)) :=
  ⟨views_lossless_flat s.obs_refs hs, views_lossless_flat t.obs_data ht⟩

/-- Witness for claim C1 on a concrete 2-object, 2-exposure blend stack
and its loaded Data counterpart, sampled at concrete keys. -/
theorem claim_c1_views_lossless_witness :
    (PyDict.keys refStack22.obs_refs).Nodup
    ∧ (PyDict.keys dataStack22.obs_data).Nodup
    ∧ ((refStack22.by_exposure).map (fun p => PyDict.size p.2)).sum
        = PyDict.size refStack22.obs_refs
    ∧ PyDict.lookup (flattenByExposure refStack22.by_exposure) ((1, 2))
        = PyDict.lookup refStack22.obs_refs ((1, 2))
    ∧ PyDict.lookup (flattenByObject dataStack22.by_object) ((2, 1))
        = PyDict.lookup dataStack22.obs_data ((2, 1)) :=
  ⟨by decide, by decide,
    (claim_c1_views_lossless refStack22 dataStack22 (by decide) (by decide)).1.1,
    (claim_c1_views_lossless refStack22 dataStack22
      (by decide) (by decide)).1.2.2.1 ((1, 2)),
    (claim_c1_views_lossless refStack22 dataStack22
      (by decide) (by decide)).2.2.2.2.1 ((2, 1))⟩

/-- The `_models` registry of an `ObsRef` after a write. -/
theorem ObsRef.models_attachModel (r : ObsRef R P M W) (a : String) (m : M) :
    (r.attachModel a m).models = PyDict.set r.models a m := by
  cases r
  rfl

/-- Writing twice under one key into a registry with distinct keys keeps
the second value, exactly one entry under that key, and every other key
unchanged. -/
theorem registry_overwrite {M : Type} (d : PyDict String M)
    (hnd : (PyDict.keys d).Nodup) (a : String) (m₁ m₂ : M) :
    PyDict.lookup ((d.set a m₁).set a m₂) a = some m₂
    ∧ (PyDict.keys ((d.set a m₁).set a m₂)).count a = 1
    ∧ ∀ k, k ≠ a → PyDict.lookup ((d.set a m₁).set a m₂) k = PyDict.lookup d k := by
  rw [PyDict.set_set_same]
  exact ⟨PyDict.lookup_set_self d a m₂, PyDict.count_keys_set hnd a m₂,
    fun k hk => PyDict.lookup_set_ne d m₂ hk⟩

/-- Claim C3: on every entity holding a model registry (`ObjectData`,
`ObsRef`, `PSF`) whose registry, a Python dict, has distinct keys,
attaching a Model under the identifier shape twice leaves exactly one
shape entry holding the second Model, and every other key of the registry
maps to the same Model as before (last-write-wins per key). -/
theorem claim_c3_registry_last_write_wins {R P M W : Type}
    (o : ObjectData R P M) (r : ObsRef R P M W) (ps : PSF M) (m₁ m₂ : M)
    (ho : (PyDict.keys o.models).Nodup) (hr : (PyDict.keys r.models).Nodup)
    (hp : (PyDict.keys ps.models).Nodup) :
    (PyDict.lookup ((o.attachModel ("shape") m₁).attachModel ("shape") m₂).models
        ("shape") = some m₂
      ∧ (PyDict.keys
          ((o.attachModel ("shape") m₁).attachModel ("shape") m₂).models).count
          ("shape") = 1
      ∧ ∀ k, k ≠ ("shape") →
          PyDict.lookup ((o.attachModel ("shape") m₁).attachModel ("shape") m₂).models
            k = PyDict.lookup o.models k)
    ∧ (PyDict.lookup ((r.attachModel ("shape") m₁).attachModel ("shape") m₂).models
        ("shape") = some m₂
      ∧ (PyDict.keys
          ((r.attachModel ("shape") m₁).attachModel ("shape") m₂).models).count
          ("shape") = 1
      ∧ ∀ k, k ≠ ("shape") →
          PyDict.lookup ((r.attachModel ("shape") m₁).attachModel ("shape") m₂).models
            k = PyDict.lookup r.models k)
    ∧ (PyDict.lookup ((ps.attachModel ("shape") m₁).attachModel ("shape") m₂).models
        ("shape") = some m₂
      ∧ (PyDict.keys
          ((ps.attachModel ("shape") m₁).attachModel ("shape") m₂).models).count
          ("shape") = 1
      ∧ ∀ k, k ≠ ("shape") →
          PyDict.lookup ((ps.attachModel ("shape") m₁).attachModel ("shape") m₂).models
            k = PyDict.lookup ps.models k) := by
  refine ⟨?_, ?_, ?_⟩
  · simpa [ObjectData.attachModel] using registry_overwrite o.models ho ("shape") m₁ m₂
  · simpa [ObsRef.models_attachModel] using registry_overwrite r.models hr ("shape") m₁ m₂
  · simpa [PSF.attachModel] using registry_overwrite ps.models hp ("shape") m₁ m₂

/-- Witness for claim C3 on concrete registries holding one prior flux
entry each. -/
theorem claim_c3_registry_last_write_wins_witness :
    (PyDict.keys fluxObject.models).Nodup
    ∧ (PyDict.keys fluxObsRef.models).Nodup
    ∧ (PyDict.keys fluxPsf.models).Nodup
    ∧ PyDict.lookup
        ((fluxObject.attachModel ("shape") 1).attachModel ("shape") 2).models
        ("shape") = some 2
    ∧ (PyDict.keys
        ((fluxObject.attachModel ("shape") 1).attachModel ("shape") 2).models).count
        ("shape") = 1
    ∧ PyDict.lookup
        ((fluxObsRef.attachModel ("shape") 1).attachModel ("shape") 2).models
        ("flux") = PyDict.lookup fluxObsRef.models ("flux")
    ∧ PyDict.lookup
        ((fluxPsf.attachModel ("shape") 1).attachModel ("shape") 2).models
        ("shape") = some 2 :=
  ⟨by decide, by decide, by decide,
    (claim_c3_registry_last_write_wins fluxObject fluxObsRef fluxPsf 1 2
      (by decide) (by decide) (by decide)).1.1,
    (claim_c3_registry_last_write_wins fluxObject fluxObsRef fluxPsf 1 2
      (by decide) (by decide) (by decide)).1.2.1,
    (claim_c3_registry_last_write_wins fluxObject fluxObsRef fluxPsf 1 2
      (by decide) (by decide) (by decide)).2.1.2.2 ("flux") (by decide),
    (claim_c3_registry_last_write_wins fluxObject fluxObsRef fluxPsf 1 2
      (by decide) (by decide) (by decide)).2.2.1⟩

/-- Counterexample to claim C8 as stated: `ObsRef.__init__` stores the
caller's neighbors dict unfiltered, so constructing an `ObsRef` whose
neighbors argument contains the id of its own owning `ObjectData` yields
a neighbors mapping that does contain the own object id. -/
theorem claim_c8_no_self_neighbor_counterexample :
    selfNeighborRef.object_id ∈ PyDict.keys selfNeighborRef.neighbors := by
  decide

/-- Claim C8 as amended: the neighbors mapping of an `ObsRef` excludes
the own object id when the neighbors argument does (the constructor
copies without filtering, and omitting the argument gives an empty
mapping), and neighbor removal, the only core operation that rewrites
the mapping, preserves the exclusion. -/
theorem claim_c8_no_self_neighbor {R P M W : Type}
    (od : ObjectData R P M) (eid : Nat) (ic : Bool) (fn : String) (w : W)
    (nb : PyDict Nat (ObsRef R P M W)) (reg : Option R)
    (h : od.object_id ∉ PyDict.keys nb) :
    (mkObsRef od eid ic fn w (some nb) reg).object_id
        ∉ PyDict.keys (mkObsRef od eid ic fn w (some nb) reg).neighbors
    ∧ (mkObsRef od eid ic fn w none reg).object_id
        ∉ PyDict.keys (mkObsRef od eid ic fn w none reg).neighbors
    ∧ ∀ (r : ObsRef R P M W) (n : Nat),
        r.object_id ∉ PyDict.keys r.neighbors →
        (r.removeNeighbor n).object_id
          ∉ PyDict.keys (r.removeNeighbor n).neighbors := by
  refine ⟨h, ?_, ?_⟩
  · simp [mkObsRef, ObsRef.neighbors, PyDict.keys]
  · intro r n hr hmem
    cases r with
    | mk od2 e2 c2 f2 w2 nbs reg2 ms =>
      exact hr (PyDict.keys_erase_subset nbs n hmem)

/-- Witness for the amended claim C8 on a concrete `ObsRef` whose
neighbors argument holds only a different object. -/
theorem claim_c8_no_self_neighbor_witness :
    (mkObjectData 1 () () : ObjectData Unit Unit Nat).object_id
      ∉ PyDict.keys okNeighborDict
    ∧ (mkObsRef (mkObjectData 1 () ()) 2 false ("") ()
        (some okNeighborDict) none).object_id
      ∉ PyDict.keys (mkObsRef (mkObjectData 1 () ()) 2 false ("") ()
        (some okNeighborDict) none).neighbors :=
  ⟨by decide,
    (claim_c8_no_self_neighbor (mkObjectData 1 () ()) 2 false ("") ()
      okNeighborDict none (by decide)).1⟩

/-- Claim C9: `ObsData.__init__` accepts `region` and `neighbors`
parameters (of any types) but discards them: the constructed `ObsData`
stores exactly `image`, `mask`, `weight`, `psf`, `wcs`, `transmission`
and `ref` from its arguments, and two constructions differing only in
`region` and `neighbors` are equal. -/
theorem claim_c9_obsdata_discards_region_neighbors
    {Img Msk Wgt Ps W Tr R R2 Nb Nb2 Rf : Type}
    (image : Img) (mask : Option Msk) (weight : Option Wgt) (psf : Option Ps)
    (wcs : Option W) (transmission : Option Tr) (r₁ : Option R) (r₂ : Option R2)
    (n₁ : Option Nb) (n₂ : Option Nb2) (ref : Option Rf) :
    mkObsData image mask weight psf wcs transmission r₁ n₁ ref
      = mkObsData image mask weight psf wcs transmission r₂ n₂ ref
    ∧ (mkObsData image mask weight psf wcs transmission r₁ n₁ ref).image = image
    ∧ (mkObsData image mask weight psf wcs transmission r₁ n₁ ref).mask = mask
    ∧ (mkObsData image mask weight psf wcs transmission r₁ n₁ ref).weight = weight
    ∧ (mkObsData image mask weight psf wcs transmission r₁ n₁ ref).psf = psf
    ∧ (mkObsData image mask weight psf wcs transmission r₁ n₁ ref).wcs = wcs
    ∧ (mkObsData image mask weight psf wcs transmission r₁ n₁ ref).transmission
        = transmission
    ∧ (mkObsData image mask weight psf wcs transmission r₁ n₁ ref).ref = ref :=
  ⟨rfl, rfl, rfl, rfl, rfl, rfl, rfl, rfl⟩

/-- Mutating any dict that existed before a `dict(...)` copy leaves the
copy holding the contents the source dict had at copy time. -/
theorem dictCopy_write_old {K V : Type} (st : Store K V) (src a : Nat)
    (h : a < st.next) (d2 : PyDict K V) :
    (((dictCopy st src).2).write a d2).mem (dictCopy st src).1 = st.mem src := by
  have hne : ¬ st.next = a := fun e => absurd (e ▸ h) (lt_irrefl _)
  simp [dictCopy, Store.alloc, Store.write, hne]

/-- Claim C10: every constructor taking a mapping argument (`BlendData`'s
object_data, `ObsRef`'s neighbors, `BlendObsRef`'s obs_refs,
`ObsRefStack`'s obs_refs, `BlendObsRefStack`'s obs_refs, and the
Data-side counterparts `BlendObsData`, `ObsDataStack`,
`BlendObsDataStack`) stores a copy taken at construction time, so
mutating the caller-supplied dict (any dict allocated before the
construction) afterwards leaves the internal mapping holding the
construction-time contents. -/
theorem claim_c10_constructor_copies {R P M W V V2 B B2 B3 OD OD2 Img Msk Wgt Rf : Type}
    (st : Store Nat V) (sr : R) (src a : Nat) (d2 : PyDict Nat V)
    (od : ObjectData R P M) (eid : Nat) (ic : Bool) (fn : String) (w : W)
    (nbr : Nat) (reg : Option R)
    (st2 : Store (Nat × Nat) V2) (bd : B) (bd2 : B2) (src2 a2 : Nat)
    (d3 : PyDict (Nat × Nat) V2)
    (bd3 : B3) (eid2 : Nat) (ic2 : Bool) (fn2 : String) (srcB : Nat)
    (reg2 : Option R)
    (odS : OD) (srcS : Nat) (odD : OD2) (srcD : Nat)
    (img : Img) (msk : Msk) (wgt : Wgt) (srcBD : Nat) (reg3 : Option R)
    (rf : Option Rf)
    (h : a < st.next) (h2 : a2 < st2.next) :
    ((mkBlendDataHp st sr src).1).objectDataIn
        (((mkBlendDataHp st sr src).2).write a d2) = st.mem src
    ∧ (((mkObsRefHp st od eid ic fn w (some nbr) reg).1 :
          ObsRefHp R P M W)).neighborsIn
        (((mkObsRefHp st od eid ic fn w (some nbr) reg).2).write a d2) = st.mem nbr
    ∧ ((mkBlendObsRefStackHp st2 bd src2).1).obsRefsIn
        (((mkBlendObsRefStackHp st2 bd src2).2).write a2 d3) = st2.mem src2
    ∧ ((mkBlendObsDataStackHp st2 bd2 src2).1).obsDataIn
        (((mkBlendObsDataStackHp st2 bd2 src2).2).write a2 d3) = st2.mem src2
    ∧ (((mkBlendObsRefHp st bd3 eid2 ic2 fn2 srcB reg2).1 :
          BlendObsRefHp B3 R)).obsRefsIn
        (((mkBlendObsRefHp st bd3 eid2 ic2 fn2 srcB reg2).2).write a d2)
        = st.mem srcB
    ∧ ((mkObsRefStackHp st odS srcS).1).obsRefsIn
        (((mkObsRefStackHp st odS srcS).2).write a d2) = st.mem srcS
    ∧ ((mkObsDataStackHp st odD srcD).1).obsDataIn
        (((mkObsDataStackHp st odD srcD).2).write a d2) = st.mem srcD
    ∧ (((mkBlendObsDataHp st img msk wgt srcBD reg3 rf).1 :
          BlendObsDataHp Img Msk Wgt R Rf)).obsDataIn
        (((mkBlendObsDataHp st img msk wgt srcBD reg3 rf).2).write a d2)
        = st.mem srcBD := by
  refine ⟨?_, ?_, ?_, ?_, ?_, ?_, ?_, ?_⟩
  · simpa [mkBlendDataHp, BlendDataHp.objectDataIn] using
      dictCopy_write_old st src a h d2
  · simpa [mkObsRefHp, ObsRefHp.neighborsIn] using
      dictCopy_write_old st nbr a h d2
  · simpa [mkBlendObsRefStackHp, BlendObsRefStackHp.obsRefsIn] using
      dictCopy_write_old st2 src2 a2 h2 d3
  · simpa [mkBlendObsDataStackHp, BlendObsDataStackHp.obsDataIn] using
      dictCopy_write_old st2 src2 a2 h2 d3
  · simpa [mkBlendObsRefHp, BlendObsRefHp.obsRefsIn] using
      dictCopy_write_old st srcB a h d2
  · simpa [mkObsRefStackHp, ObsRefStackHp.obsRefsIn] using
      dictCopy_write_old st srcS a h d2
  · simpa [mkObsDataStackHp, ObsDataStackHp.obsDataIn] using
      dictCopy_write_old st srcD a h d2
  · simpa [mkBlendObsDataHp, BlendObsDataHp.obsDataIn] using
      dictCopy_write_old st srcBD a h d2

/-- Witness for claim C10 on concrete one-dict heaps: after mutating the
caller's dict, the constructed entities still hold the original
contents. -/
theorem claim_c10_constructor_copies_witness :
    0 < heapStoreNat.next ∧ 0 < heapStorePair.next
    ∧ ((mkBlendDataHp heapStoreNat () 0).1).objectDataIn
        (((mkBlendDataHp heapStoreNat () 0).2).write 0 []) = heapStoreNat.mem 0
    ∧ ((mkBlendObsDataStackHp heapStorePair () 0).1).obsDataIn
        (((mkBlendObsDataStackHp heapStorePair () 0).2).write 0 [])
        = heapStorePair.mem 0
    ∧ ((mkObsRefStackHp heapStoreNat () 0).1).obsRefsIn
        (((mkObsRefStackHp heapStoreNat () 0).2).write 0 []) = heapStoreNat.mem 0
    ∧ (((mkBlendObsDataHp heapStoreNat 0 0 0 0 (none : Option Unit)
          (none : Option Unit)).1 :
          BlendObsDataHp Nat Nat Nat Unit Unit)).obsDataIn
        (((mkBlendObsDataHp heapStoreNat 0 0 0 0 (none : Option Unit)
          (none : Option Unit)).2).write 0 []) = heapStoreNat.mem 0 :=
  ⟨by decide, by decide,
    (claim_c10_constructor_copies heapStoreNat () 0 0 []
      (mkObjectData 1 () () : ObjectData Unit Unit Nat) 1 false ("") (() : Unit)
      0 none heapStorePair () () 0 0 [] () 2 false ("") 0 none () 0 () 0
      0 0 0 0 none (none : Option Unit) (by decide) (by decide)).1,
    (claim_c10_constructor_copies heapStoreNat () 0 0 []
      (mkObjectData 1 () () : ObjectData Unit Unit Nat) 1 false ("") (() : Unit)
      0 none heapStorePair () () 0 0 [] () 2 false ("") 0 none () 0 () 0
      0 0 0 0 none (none : Option Unit) (by decide) (by decide)).2.2.2.1,
    (claim_c10_constructor_copies heapStoreNat () 0 0 []
      (mkObjectData 1 () () : ObjectData Unit Unit Nat) 1 false ("") (() : Unit)
      0 none heapStorePair () () 0 0 [] () 2 false ("") 0 none () 0 () 0
      0 0 0 0 none (none : Option Unit) (by decide) (by decide)).2.2.2.2.2.1,
    (claim_c10_constructor_copies heapStoreNat () 0 0 []
      (mkObjectData 1 () () : ObjectData Unit Unit Nat) 1 false ("") (() : Unit)
      0 none heapStorePair () () 0 0 [] () 2 false ("") 0 none () 0 () 0
      0 0 0 0 none (none : Option Unit) (by decide) (by decide)).2.2.2.2.2.2.2⟩

/-- One Fitter registry write leaves every pixel buffer unchanged. -/
theorem applyFitterAction_pixels {Img Msk Wgt M : Type}
    (s : PipelineState Img Msk Wgt M) (act : FitterAction M) :
    (applyFitterAction s act).pixels = s.pixels := by
  cases act <;> rfl

/-- Claim C5: a Fitter never mutates a pixel buffer: for every sequence
of Fitter registry writes (in particular every prefix at which a failing
call stops) and every pipeline state, the image, mask and weight buffers
of every observation are bit-identical before and after
`processBlend`. -/
theorem claim_c5_fitter_pixel_purity {Img Msk Wgt M : Type}
    (acts : List (FitterAction M)) (s : PipelineState Img Msk Wgt M) :
    (processBlendF acts s).pixels = s.pixels
    ∧ ∀ k, PyDict.lookup (processBlendF acts s).pixels k
        = PyDict.lookup s.pixels k := by
  have h : (processBlendF acts s).pixels = s.pixels := by
    induction acts generalizing s with
    | nil => rfl
    | cons a rest ih =>
      rw [processBlendF, List.foldl_cons]
      exact (ih (applyFitterAction s a)).trans (applyFitterAction_pixels s a)
  exact ⟨h, fun k => by rw [h]⟩

/-- Keys are preserved by a successful all-or-nothing child load. -/
theorem loadAll_keys {K V D : Type} (f : V → Option D) :
    ∀ (d : PyDict K V) (d2 : PyDict K D), loadAll f d = some d2 →
      PyDict.keys d2 = PyDict.keys d := by
  intro d
  induction d with
  | nil =>
    intro d2 h
    simp only [loadAll, Option.some.injEq] at h
    subst h
    rfl
  | cons p rest ih =>
    intro d2 h
    obtain ⟨k, v⟩ := p
    cases hf : f v with
    | none => simp [loadAll, hf] at h
    | some w =>
      cases hr : loadAll f rest with
      | none => simp [loadAll, hf, hr] at h
      | some ds =>
        simp only [loadAll, hf, hr, Option.some.injEq] at h
        subst h
        have htail := ih ds hr
        simp only [PyDict.keys, List.map_cons] at htail ⊢
        rw [htail]

/-- Every child entry of a successful all-or-nothing load is loaded and
present in the result under its own key. -/
theorem loadAll_mem {K V D : Type} (f : V → Option D) :
    ∀ (d : PyDict K V) (d2 : PyDict K D), loadAll f d = some d2 →
      ∀ k v, (k, v) ∈ d → ∃ w, f v = some w ∧ (k, w) ∈ d2 := by
  intro d
  induction d with
  | nil => intro d2 _ k v hm; simp at hm
  | cons p rest ih =>
    intro d2 h k v hm
    obtain ⟨k0, v0⟩ := p
    cases hf : f v0 with
    | none => simp [loadAll, hf] at h
    | some w0 =>
      cases hr : loadAll f rest with
      | none => simp [loadAll, hf, hr] at h
      | some ds =>
        simp only [loadAll, hf, hr, Option.some.injEq] at h
        rcases List.mem_cons.mp hm with he | hm2
        · injection he with he1 he2
          subst he1
          subst he2
          exact ⟨w0, hf, by rw [← h]; exact List.mem_cons_self _ _⟩
        · obtain ⟨w, hw, hmem⟩ := ih ds hr k v hm2
          exact ⟨w, hw, by rw [← h]; exact List.mem_cons_of_mem _ hmem⟩

/-- An all-or-nothing load succeeds exactly when every child load
succeeds. -/
theorem loadAll_isSome_iff {K V D : Type} (f : V → Option D) :
    ∀ (d : PyDict K V), (loadAll f d).isSome ↔ ∀ p ∈ d, (f p.2).isSome := by
  intro d
  induction d with
  | nil => simp [loadAll]
  | cons p rest ih =>
    obtain ⟨k, v⟩ := p
    cases hf : f v with
    | none =>
      simp only [loadAll, hf]
      constructor
      · intro h
        simp at h
      · intro h
        have hhead := h (k, v) (List.mem_cons_self _ _)
        rw [hf] at hhead
        simp at hhead
    | some w =>
      cases hr : loadAll f rest with
      | none =>
        simp only [loadAll, hf, hr]
        constructor
        · intro h
          simp at h
        · intro h
          have htail : ∀ p ∈ rest, (f p.2).isSome :=
            fun p hp => h p (List.mem_cons_of_mem _ hp)
          rw [← ih, hr] at htail
          simp at htail
      | some ds =>
        simp only [loadAll, hf, hr]
        constructor
        · intro _
          intro p hp
          rcases List.mem_cons.mp hp with he | hm
          · rw [he, hf]
            rfl
          · exact (ih.mp (by rw [hr]; rfl)) p hm
        · intro _
          rfl

/-- Claim C2: `load()` is atomic on every Reference kind.  A successful
`ObsRef.load()` returns the fully built `ObsData` (all buffers, the PSF,
and the back-reference populated) and fails exactly when the storage
collaborator fails; each container load (`ObsRefStack`, `BlendObsRef`,
`BlendObsRefStack`) preserves the key set exactly, loads every child, and
succeeds exactly when every part succeeds, so no partial Data object is
ever returned. -/
theorem claim_c2_load_atomic {R P M W Img Msk Wgt Ps Tr OD B : Type}
    (fetch : ObsRef R P M W → Option (LoadedBuffers Img Msk Wgt Ps W Tr))
    (fetchTop : BlendObsRef B R (ObsRef R P M W) → Option (Img × Msk × Wgt)) :
    (∀ (r : ObsRef R P M W) d, loadObsRef fetch r = some d →
      ∃ b, fetch r = some b
        ∧ d = mkObsData b.image (some b.mask) (some b.weight) (some b.psf)
            (some b.wcs) (some b.transmission) (none : Option Unit)
            (none : Option Unit) (some r)
        ∧ d.psf = some b.psf ∧ d.ref = some r)
    ∧ (∀ r : ObsRef R P M W, (loadObsRef fetch r).isSome ↔ (fetch r).isSome)
    ∧ (∀ (s : ObsRefStack OD (ObsRef R P M W)) d2,
        loadObsRefStack fetch s = some d2 →
          d2.object_data = s.object_data
          ∧ PyDict.keys d2.obs_data = PyDict.keys s.obs_refs
          ∧ ∀ k r, (k, r) ∈ s.obs_refs →
              ∃ d, loadObsRef fetch r = some d ∧ (k, d) ∈ d2.obs_data)
    ∧ (∀ s : ObsRefStack OD (ObsRef R P M W),
        (loadObsRefStack fetch s).isSome
          ↔ ∀ p ∈ s.obs_refs, (loadObsRef fetch p.2).isSome)
    ∧ (∀ (br : BlendObsRef B R (ObsRef R P M W)) d2,
        loadBlendObsRef fetchTop fetch br = some d2 →
          (∃ t, fetchTop br = some t ∧ d2.image = t.1 ∧ d2.mask = t.2.1
            ∧ d2.weight = t.2.2)
          ∧ d2.ref = some br
          ∧ PyDict.keys d2.obs_data = PyDict.keys br.obs_refs
          ∧ ∀ k r, (k, r) ∈ br.obs_refs →
              ∃ d, loadObsRef fetch r = some d ∧ (k, d) ∈ d2.obs_data)
    ∧ (∀ br : BlendObsRef B R (ObsRef R P M W),
        (loadBlendObsRef fetchTop fetch br).isSome
          ↔ ((fetchTop br).isSome
            ∧ ∀ p ∈ br.obs_refs, (loadObsRef fetch p.2).isSome))
    ∧ (∀ (s : BlendObsRefStack B (ObsRef R P M W)) d2,
        loadBlendObsRefStack fetch s = some d2 →
          d2.blend_data = s.blend_data
          ∧ PyDict.keys d2.obs_data = PyDict.keys s.obs_refs
          ∧ ∀ k r, (k, r) ∈ s.obs_refs →
              ∃ d, loadObsRef fetch r = some d ∧ (k, d) ∈ d2.obs_data)
    ∧ (∀ s : BlendObsRefStack B (ObsRef R P M W),
        (loadBlendObsRefStack fetch s).isSome
          ↔ ∀ p ∈ s.obs_refs, (loadObsRef fetch p.2).isSome) := by
  refine ⟨?_, ?_, ?_, ?_, ?_, ?_, ?_, ?_⟩
  · intro r d h
    cases hf : fetch r with
    | none => rw [loadObsRef, hf] at h; cases h
    | some b =>
      rw [loadObsRef, hf] at h
      simp only [Option.map_some', Option.some.injEq] at h
      exact ⟨b, rfl, h.symm, by rw [← h]; rfl, by rw [← h]; rfl⟩
  · intro r
    rw [loadObsRef, Option.isSome_map']
  · intro s d2 h
    cases hl : loadAll (loadObsRef fetch) s.obs_refs with
    | none => rw [loadObsRefStack, hl] at h; cases h
    | some ds =>
      rw [loadObsRefStack, hl] at h
      simp only [Option.map_some', Option.some.injEq] at h
      refine ⟨by rw [← h], by rw [← h]; exact loadAll_keys _ _ _ hl, ?_⟩
      intro k r hm
      obtain ⟨w, hw, hmem⟩ := loadAll_mem _ _ _ hl k r hm
      exact ⟨w, hw, by rw [← h]; exact hmem⟩
  · intro s
    rw [loadObsRefStack, Option.isSome_map']
    exact loadAll_isSome_iff _ _
  · intro br d2 h
    cases ht : fetchTop br with
    | none => rw [loadBlendObsRef, ht] at h; cases h
    | some t =>
      cases hl : loadAll (loadObsRef fetch) br.obs_refs with
      | none => rw [loadBlendObsRef, ht, hl] at h; cases h
      | some ds =>
        rw [loadBlendObsRef, ht, hl] at h
        simp only [Option.some.injEq] at h
        refine ⟨⟨t, rfl, by rw [← h], by rw [← h], by rw [← h]⟩, by rw [← h], ?_, ?_⟩
        · rw [← h]
          exact loadAll_keys _ _ _ hl
        · intro k r hm
          obtain ⟨w, hw, hmem⟩ := loadAll_mem _ _ _ hl k r hm
          exact ⟨w, hw, by rw [← h]; exact hmem⟩
  · intro br
    cases ht : fetchTop br with
    | none =>
      cases hl : loadAll (loadObsRef fetch) br.obs_refs <;>
        simp [loadBlendObsRef, ht, hl]
    | some t =>
      cases hl : loadAll (loadObsRef fetch) br.obs_refs with
      | none =>
        have hiff := loadAll_isSome_iff (loadObsRef fetch) br.obs_refs
        rw [hl] at hiff
        simp only [Option.isSome_none, Bool.false_eq_true, false_iff] at hiff
        simp only [loadBlendObsRef, ht, hl, Option.isSome_none, Bool.false_eq_true,
          false_iff]
        intro hc
        exact hiff hc.2
      | some ds =>
        have hiff := loadAll_isSome_iff (loadObsRef fetch) br.obs_refs
        rw [hl] at hiff
        simp only [Option.isSome_some, true_iff] at hiff
        simp only [loadBlendObsRef, ht, hl]
        constructor
        · intro _
          exact ⟨rfl, hiff⟩
        · intro _
          rfl
  · intro s d2 h
    cases hl : loadAll (loadObsRef fetch) s.obs_refs with
    | none => rw [loadBlendObsRefStack, hl] at h; cases h
    | some ds =>
      rw [loadBlendObsRefStack, hl] at h
      simp only [Option.map_some', Option.some.injEq] at h
      refine ⟨by rw [← h], by rw [← h]; exact loadAll_keys _ _ _ hl, ?_⟩
      intro k r hm
      obtain ⟨w, hw, hmem⟩ := loadAll_mem _ _ _ hl k r hm
      exact ⟨w, hw, by rw [← h]; exact hmem⟩
  · intro s
    rw [loadBlendObsRefStack, Option.isSome_map']
    exact loadAll_isSome_iff _ _

/-- Witness for claim C2: the concrete storage collaborator loads a
concrete one-exposure stack whole, with the key set preserved and the
back-reference populated. -/
theorem claim_c2_load_atomic_witness :
    loadObsRefStack fetchConst plainObsRefStack = some plainObsDataStack
    ∧ plainObsDataStack.object_data = plainObsRefStack.object_data
    ∧ PyDict.keys plainObsDataStack.obs_data = PyDict.keys plainObsRefStack.obs_refs
    ∧ plainObsData.ref = some plainObsRef := by
  refine ⟨rfl, ?_, ?_, ?_⟩
  · exact ((@claim_c2_load_atomic Unit Unit Nat Unit Nat Nat Nat Nat Nat Unit Unit fetchConst (fun _ => some (7, 8, 9))).2.2.1
      plainObsRefStack plainObsDataStack rfl).1
  · exact ((@claim_c2_load_atomic Unit Unit Nat Unit Nat Nat Nat Nat Nat Unit Unit fetchConst (fun _ => some (7, 8, 9))).2.2.1
      plainObsRefStack plainObsDataStack rfl).2.1
  · obtain ⟨b, hb, hd, hpsf, href⟩ :=
      (@claim_c2_load_atomic Unit Unit Nat Unit Nat Nat Nat Nat Nat Unit Unit
        fetchConst (fun _ => some (7, 8, 9))).1 plainObsRef plainObsData rfl
    exact href

/-- No Deblender step re-adds a neighbor: the Present set only shrinks. -/
theorem debStep_nb_subset {s t : DebState} {st : DebStep}
    (h : debStep s st = some t) (k : Nat × Nat) : getNb t k ⊆ getNb s k := by
  cases st with
  | mutatePixels o e removed =>
    simp only [debStep, Option.some.injEq] at h
    rw [← h]
    exact fun x hx => hx
  | setMaskBits o e =>
    simp only [debStep, Option.some.injEq] at h
    rw [← h]
    exact fun x hx => hx
  | attachModel o e a =>
    simp only [debStep, Option.some.injEq] at h
    rw [← h]
    exact fun x hx => hx
  | markSubtracted o e n =>
    simp only [debStep] at h
    by_cases hmem : n ∈ getMut s (o, e)
    · rw [if_pos hmem, Option.some.injEq] at h
      rw [← h]
      intro x hx
      by_cases hk : k = (o, e)
      · subst hk
        simp only [getNb, PyDict.lookup_set_self, Option.getD_some] at hx
        exact (List.mem_filter.mp hx).1
      · simpa only [getNb, PyDict.lookup_set_ne _ _ hk] using hx
    · rw [if_neg hmem] at h
      cases h

/-- No Deblender step forgets a recorded flux removal. -/
theorem debStep_mut_mono {s t : DebState} {st : DebStep}
    (h : debStep s st = some t) (k : Nat × Nat) : getMut s k ⊆ getMut t k := by
  cases st with
  | mutatePixels o e removed =>
    simp only [debStep, Option.some.injEq] at h
    rw [← h]
    intro x hx
    by_cases hk : k = (o, e)
    · subst hk
      simp only [getMut, PyDict.lookup_set_self, Option.getD_some]
      exact List.mem_append_right _ hx
    · simpa only [getMut, PyDict.lookup_set_ne _ _ hk] using hx
  | setMaskBits o e =>
    simp only [debStep, Option.some.injEq] at h
    rw [← h]
    exact fun x hx => hx
  | attachModel o e a =>
    simp only [debStep, Option.some.injEq] at h
    rw [← h]
    exact fun x hx => hx
  | markSubtracted o e n =>
    simp only [debStep] at h
    by_cases hmem : n ∈ getMut s (o, e)
    · rw [if_pos hmem, Option.some.injEq] at h
      rw [← h]
      exact fun x hx => hx
    · rw [if_neg hmem] at h
      cases h

/-- A neighbor a Deblender step removes from the Present set has its flux
removal recorded afterwards. -/
theorem debStep_removed_mut {s t : DebState} {st : DebStep}
    (h : debStep s st = some t) (k : Nat × Nat) (n : Nat)
    (hin : n ∈ getNb s k) (hout : n ∉ getNb t k) : n ∈ getMut t k := by
  cases st with
  | mutatePixels o e removed =>
    simp only [debStep, Option.some.injEq] at h
    rw [← h] at hout
    exact absurd hin hout
  | setMaskBits o e =>
    simp only [debStep, Option.some.injEq] at h
    rw [← h] at hout
    exact absurd hin hout
  | attachModel o e a =>
    simp only [debStep, Option.some.injEq] at h
    rw [← h] at hout
    exact absurd hin hout
  | markSubtracted o e n2 =>
    simp only [debStep] at h
    by_cases hmem : n2 ∈ getMut s (o, e)
    · rw [if_pos hmem, Option.some.injEq] at h
      by_cases hk : k = (o, e)
      · subst hk
        rw [← h] at hout
        simp only [getNb, PyDict.lookup_set_self, Option.getD_some] at hout
        have hn2 : n = n2 := by
          by_contra hne
          exact hout (List.mem_filter.mpr ⟨hin, by simpa using hne⟩)
        rw [← h]
        simpa [getMut, hn2] using hmem
      · rw [← h] at hout
        simp only [getNb, PyDict.lookup_set_ne _ _ hk] at hout
        exact absurd hin hout
    · rw [if_neg hmem] at h
      cases h

/-- Every recorded flux removal either predates a Deblender step or is
the pixel mutation that step performed. -/
theorem debStep_mut_src {s t : DebState} {st : DebStep}
    (h : debStep s st = some t) (k : Nat × Nat) (n : Nat)
    (hn : n ∈ getMut t k) :
    n ∈ getMut s k ∨ ∃ l, st = DebStep.mutatePixels k.1 k.2 l ∧ n ∈ l := by
  cases st with
  | mutatePixels o e removed =>
    simp only [debStep, Option.some.injEq] at h
    by_cases hk : k = (o, e)
    · subst hk
      rw [← h] at hn
      simp only [getMut, PyDict.lookup_set_self, Option.getD_some] at hn
      rcases List.mem_append.mp hn with hr | ho
      · exact Or.inr ⟨removed, rfl, hr⟩
      · exact Or.inl ho
    · rw [← h] at hn
      simp only [getMut, PyDict.lookup_set_ne _ _ hk] at hn
      exact Or.inl hn
  | setMaskBits o e =>
    simp only [debStep, Option.some.injEq] at h
    rw [← h] at hn
    exact Or.inl hn
  | attachModel o e a =>
    simp only [debStep, Option.some.injEq] at h
    rw [← h] at hn
    exact Or.inl hn
  | markSubtracted o e n2 =>
    simp only [debStep] at h
    by_cases hmem : n2 ∈ getMut s (o, e)
    · rw [if_pos hmem, Option.some.injEq] at h
      rw [← h] at hn
      exact Or.inl hn
    · rw [if_neg hmem] at h
      cases h

/-- Over a whole valid run, the Present set only shrinks. -/
theorem runDeb_nb_subset {steps : List DebStep} :
    ∀ {s s2 : DebState}, runDeb s steps = some s2 →
      ∀ k, getNb s2 k ⊆ getNb s k := by
  induction steps with
  | nil =>
    intro s s2 h k
    simp only [runDeb, Option.some.injEq] at h
    rw [← h]
    exact fun x hx => hx
  | cons st rest ih =>
    intro s s2 h k
    cases hstep : debStep s st with
    | none => rw [runDeb, hstep] at h; cases h
    | some t =>
      rw [runDeb, hstep] at h
      exact fun x hx => debStep_nb_subset hstep k (ih h k hx)

/-- Over a whole valid run, recorded flux removals persist. -/
theorem runDeb_mut_subset {steps : List DebStep} :
    ∀ {s s2 : DebState}, runDeb s steps = some s2 →
      ∀ k, getMut s k ⊆ getMut s2 k := by
  induction steps with
  | nil =>
    intro s s2 h k
    simp only [runDeb, Option.some.injEq] at h
    rw [← h]
    exact fun x hx => hx
  | cons st rest ih =>
    intro s s2 h k
    cases hstep : debStep s st with
    | none => rw [runDeb, hstep] at h; cases h
    | some t =>
      rw [runDeb, hstep] at h
      exact fun x hx => ih h k (debStep_mut_mono hstep k hx)

/-- A neighbor Present at the start of a valid run and absent at its end
has its flux removal recorded at the end. -/
theorem runDeb_removed_mut {steps : List DebStep} :
    ∀ {s s2 : DebState}, runDeb s steps = some s2 →
      ∀ k n, n ∈ getNb s k → n ∉ getNb s2 k → n ∈ getMut s2 k := by
  induction steps with
  | nil =>
    intro s s2 h k n hin hout
    simp only [runDeb, Option.some.injEq] at h
    rw [← h] at hout
    exact absurd hin hout
  | cons st rest ih =>
    intro s s2 h k n hin hout
    cases hstep : debStep s st with
    | none => rw [runDeb, hstep] at h; cases h
    | some t =>
      rw [runDeb, hstep] at h
      by_cases hmid : n ∈ getNb t k
      · exact ih h k n hmid hout
      · exact runDeb_mut_subset h k (debStep_removed_mut hstep k n hin hmid)

/-- Every flux removal recorded at the end of a valid run predates the
run or names the pixel-mutation step of the run that performed it. -/
theorem runDeb_mut_src {steps : List DebStep} :
    ∀ {s s2 : DebState}, runDeb s steps = some s2 →
      ∀ k n, n ∈ getMut s2 k →
        n ∈ getMut s k
        ∨ ∃ l, DebStep.mutatePixels k.1 k.2 l ∈ steps ∧ n ∈ l := by
  induction steps with
  | nil =>
    intro s s2 h k n hn
    simp only [runDeb, Option.some.injEq] at h
    rw [← h] at hn
    exact Or.inl hn
  | cons st rest ih =>
    intro s s2 h k n hn
    cases hstep : debStep s st with
    | none => rw [runDeb, hstep] at h; cases h
    | some t =>
      rw [runDeb, hstep] at h
      rcases ih h k n hn with hmid | ⟨l, hl, hnl⟩
      · rcases debStep_mut_src hstep k n hmid with hs | ⟨l, hl, hnl⟩
        · exact Or.inl hs
        · exact Or.inr ⟨l, hl ▸ List.mem_cons_self _ _, hnl⟩
      · exact Or.inr ⟨l, List.mem_cons_of_mem _ hl, hnl⟩

/-- A valid run of a concatenation is the composition of valid runs. -/
theorem runDeb_append (l1 : List DebStep) :
    ∀ (l2 : List DebStep) (s : DebState),
      runDeb s (l1 ++ l2) = match runDeb s l1 with
        | some t => runDeb t l2
        | none => none := by
  induction l1 with
  | nil => intro l2 s; rfl
  | cons st rest ih =>
    intro l2 s
    rw [List.cons_append, runDeb]
    cases hstep : debStep s st with
    | none => rw [runDeb, hstep]
    | some t =>
      rw [runDeb, hstep]
      exact ih l2 t

/-- Claim C7: within one `Deblender.processStack` call (a valid run of
Deblender steps from the initial Reference neighbor state), every
(object, exposure, neighbor) triple transitions only from Present to
Subtracted and never back: a neighbor absent after a prefix of the call
stays absent through the rest of the call, and a neighbor Present at the
start and Subtracted at the end has a pixel mutation step of the call
that removed its flux for exactly that observation. -/
theorem claim_c7_deblender_monotone (nb : PyDict (Nat × Nat) (List Nat))
    (steps1 steps2 : List DebStep) (s1 s2 : DebState)
    (h1 : runDeb (initDeb nb) steps1 = some s1)
    (h2 : runDeb s1 steps2 = some s2) (k : Nat × Nat) (n : Nat) :
    (n ∉ getNb s1 k → n ∉ getNb s2 k)
    ∧ (n ∈ getNb (initDeb nb) k → n ∉ getNb s2 k →
        n ∈ getMut s2 k
        ∧ ∃ l, DebStep.mutatePixels k.1 k.2 l ∈ steps1 ++ steps2 ∧ n ∈ l) := by
  have hwhole : runDeb (initDeb nb) (steps1 ++ steps2) = some s2 := by
    rw [runDeb_append steps1 steps2 (initDeb nb), h1]
    exact h2
  constructor
  · intro hout hmem
    exact hout (runDeb_nb_subset h2 k hmem)
  · intro hin hout
    have hmut : n ∈ getMut s2 k := runDeb_removed_mut hwhole k n hin hout
    refine ⟨hmut, ?_⟩
    rcases runDeb_mut_src hwhole k n hmut with hinit | hsrc
    · simp [getMut, initDeb, PyDict.lookup] at hinit
    · exact hsrc

/-- Witness for claim C7 on a concrete call that subtracts neighbor 2 of
object 1 in exposure 1 and then marks it Subtracted. -/
theorem claim_c7_deblender_monotone_witness :
    runDeb (initDeb debStartNb) debTrace1 = some debMid
    ∧ runDeb debMid debTrace2 = some debEnd
    ∧ (2 ∈ getNb (initDeb debStartNb) (1, 1))
    ∧ (2 ∉ getNb debEnd (1, 1))
    ∧ (2 ∈ getMut debEnd (1, 1)
        ∧ ∃ l, DebStep.mutatePixels 1 1 l ∈ debTrace1 ++ debTrace2 ∧ 2 ∈ l) :=
  ⟨by decide, by decide, by decide, by decide,
    (claim_c7_deblender_monotone debStartNb debTrace1 debTrace2 debMid debEnd
      (by decide) (by decide) (1, 1) 2).2 (by decide) (by decide)⟩

/-- Concatenating a family of lists in which only one index of a
duplicate-free index list is non-empty yields that index's list. -/
theorem flatten_map_eq_single {κ α : Type} :
    ∀ (es : List κ) (F : κ → List α) (e : κ), es.Nodup → e ∈ es →
      (∀ e2 ∈ es, e2 ≠ e → F e2 = []) → (es.map F).flatten = F e := by
  intro es
  induction es with
  | nil =>
    intro F e _ he _
    simp at he
  | cons a es ih =>
    intro F e hnd he h0
    rw [List.map_cons, List.flatten_cons]
    rcases List.mem_cons.mp he with rfl | he2
    · have htail : ∀ l ∈ es.map F, l = [] := by
        intro l hl
        obtain ⟨e2, he2, rfl⟩ := List.mem_map.mp hl
        exact h0 e2 (List.mem_cons_of_mem _ he2)
          (fun hEq => (List.nodup_cons.mp hnd).1 (hEq ▸ he2))
      rw [List.flatten_eq_nil_iff.mpr htail, List.append_nil]
    · have hae : a ≠ e := fun hEq => (List.nodup_cons.mp hnd).1 (hEq ▸ he2)
      rw [h0 a (List.mem_cons_self _ _) hae, List.nil_append]
      exact ih F e (List.nodup_cons.mp hnd).2 he2
        (fun e2 h2 hne => h0 e2 (List.mem_cons_of_mem _ h2) hne)

/-- The flat mapping a modelled `SingleExposureDeblender.processStack`
returns: the concatenation of the per-exposure results re-keyed by their
exposure. -/
theorem processStackSE_obs_data {B E F : Type}
    (f : Nat → PyDict Nat E → PyDict Nat F) (s : BlendObsRefStack B E) :
    (processStackSE f s).obs_data
      = ((exposureIds s.obs_refs).map
          (fun e => (f e (sliceByExposure s.obs_refs e)).map
            (fun q => ((q.1, e), q.2)))).flatten := by
  rw [processStackSE, flattenByExposure, BlendObsRefStack.by_exposure, byExposureOf,
    List.map_map, List.map_map]
  rfl

/-- Re-keying a view inner mapping by a fixed exposure id pairs every key
with that exposure. -/
theorem keys_map_addExposure {E2 : Type} (X : PyDict Nat E2) (e : Nat) :
    PyDict.keys (X.map (fun q => ((q.1, e), q.2)))
      = (PyDict.keys X).map (fun o => (o, e)) := by
  simp [PyDict.keys, List.map_map, Function.comp]

/-- Claim C6: a `SingleExposureDeblender.processStack` decomposes the
stack by exposure: provided `processExposure` preserves the key set of
each exposure it is given (as the load contract guarantees), the slice of
the returned `BlendObsDataStack` at each exposure equals the result of
calling `processExposure` on that exposure's inner mapping in isolation,
and the returned stack has exactly the key set of the input flat
mapping.  A 2-object, 2-exposure blend is the witness instance. -/
theorem claim_c6_single_exposure_decomposition {B E F : Type}
    (f : Nat → PyDict Nat E → PyDict Nat F) (s : BlendObsRefStack B E)
    (hkeys : ∀ e ∈ exposureIds s.obs_refs,
      PyDict.keys (f e (sliceByExposure s.obs_refs e))
        = PyDict.keys (sliceByExposure s.obs_refs e)) :
    (∀ e ∈ exposureIds s.obs_refs,
      sliceByExposure (processStackSE f s).obs_data e
        = f e (sliceByExposure s.obs_refs e))
    ∧ (∀ k, k ∈ PyDict.keys (processStackSE f s).obs_data
        ↔ k ∈ PyDict.keys s.obs_refs) := by
  have hflat := processStackSE_obs_data f s
  constructor
  · intro e he
    rw [hflat, sliceByExposure, List.filter_flatten, List.map_map]
    have h0 : ∀ e2 ∈ exposureIds s.obs_refs, e2 ≠ e →
        (List.filter (fun p => decide (p.1.2 = e)) ∘ fun e2 =>
          (f e2 (sliceByExposure s.obs_refs e2)).map (fun q => ((q.1, e2), q.2))) e2
          = [] := by
      intro e2 h2 hne
      simp only [Function.comp]
      rw [List.filter_eq_nil_iff]
      intro x hx
      obtain ⟨q, hq, rfl⟩ := List.mem_map.mp hx
      simpa using hne
    rw [flatten_map_eq_single (exposureIds s.obs_refs) _ e
      (List.nodup_dedup _) he h0]
    simp only [Function.comp]
    have hall : ∀ x ∈ (f e (sliceByExposure s.obs_refs e)).map
        (fun q => ((q.1, e), q.2)), (fun p => decide (p.1.2 = e)) x = true := by
      intro x hx
      obtain ⟨q, hq, rfl⟩ := List.mem_map.mp hx
      simp
    rw [List.filter_eq_self.mpr hall, List.map_map]
    exact map_eq_self_of_mem (fun q _ => rfl)
  · intro k
    have hkeyblock : ∀ e ∈ exposureIds s.obs_refs,
        PyDict.keys ((f e (sliceByExposure s.obs_refs e)).map
            (fun q => ((q.1, e), q.2)))
          = PyDict.keys (s.obs_refs.filter (fun p => decide (p.1.2 = e))) := by
      intro e he
      rw [keys_map_addExposure, hkeys e he, ← keys_map_addExposure,
        sliceByExposure_expand]
    have hkr : PyDict.keys (processStackSE f s).obs_data
        = PyDict.keys (((exposureIds s.obs_refs).map
            (fun e => s.obs_refs.filter (fun p => decide (p.1.2 = e)))).flatten) := by
      rw [hflat]
      simp only [PyDict.keys] at hkeyblock ⊢
      rw [List.map_flatten, List.map_flatten, List.map_map, List.map_map]
      congr 1
      refine List.map_congr_left ?_
      intro e he
      exact hkeyblock e he
    rw [hkr]
    exact ((flatten_groups_perm (fun p => p.1.2) (exposureIds s.obs_refs) s.obs_refs
      (List.nodup_dedup _)
      (fun a ha => List.mem_dedup.mpr (List.mem_map_of_mem _ ha))).map
        Prod.fst).mem_iff

/-- Witness for claim C6 on the concrete 2-object, 2-exposure blend
stack with a concrete per-exposure body. -/
theorem claim_c6_single_exposure_decomposition_witness :
    (∀ e ∈ exposureIds refStack22.obs_refs,
      PyDict.keys (addHundred e (sliceByExposure refStack22.obs_refs e))
        = PyDict.keys (sliceByExposure refStack22.obs_refs e))
    ∧ sliceByExposure (processStackSE addHundred refStack22).obs_data 1
        = addHundred 1 (sliceByExposure refStack22.obs_refs 1)
    ∧ ((1, 2) ∈ PyDict.keys (processStackSE addHundred refStack22).obs_data
        ↔ (1, 2) ∈ PyDict.keys refStack22.obs_refs) :=
  ⟨by decide,
    (claim_c6_single_exposure_decomposition addHundred refStack22 (by decide)).1
      1 (by decide),
    (claim_c6_single_exposure_decomposition addHundred refStack22 (by decide)).2
      ((1, 2))⟩

/-- Every value child that looks up a conforming schema child passes the
executable child check. -/
theorem conformsChildren_of {D : Type} [DecidableEq D]
    (ss : PyDict String (SchemaTree D)) :
    ∀ (l : PyDict String (ValueTree D)),
      (∀ k v, (k, v) ∈ l →
        ∃ st, PyDict.lookup ss k = some st ∧ conformsB v st = true) →
      conformsChildren l ss = true := by
  intro l
  induction l with
  | nil =>
    intro _
    rfl
  | cons p rest ih =>
    intro h
    obtain ⟨k, v⟩ := p
    obtain ⟨st, hst, hc⟩ := h k v (List.mem_cons_self _ _)
    simp only [conformsChildren, hst, hc, Bool.true_and]
    exact ih (fun k2 v2 hm => h k2 v2 (List.mem_cons_of_mem _ hm))

/-- A Model satisfying the spec contract passes the executable key-set
and dtype check at every nesting level. -/
theorem conformsB_of_conforms {D : Type} [DecidableEq D]
    {v : ValueTree D} {sc : SchemaTree D} (h : Conforms v sc) :
    conformsB v sc = true := by
  induction h with
  | leaf d => simp [conformsB]
  | node cs ss hnd hkeys hsub ih =>
    simp only [conformsB, Bool.and_eq_true]
    constructor
    · rw [List.all_eq_true]
      intro p hp
      have h1 : (PyDict.lookup ss p.1).isSome := PyDict.lookup_isSome_of_mem hp
      have h2 : (PyDict.lookup cs p.1).isSome := (hkeys p.1).mpr h1
      have h3 : p.1 ∈ PyDict.keys cs :=
        (PyDict.lookup_isSome_iff_mem_keys cs p.1).mp h2
      exact decide_eq_true h3
    · refine conformsChildren_of ss cs ?_
      intro k v2 hm
      have hlk : PyDict.lookup cs k = some v2 := PyDict.lookup_eq_some_of_mem hnd hm
      have h1 : (PyDict.lookup ss k).isSome := (hkeys k).mp (by rw [hlk]; rfl)
      obtain ⟨st, hst⟩ := Option.isSome_iff_exists.mp h1
      exact ⟨st, hst, ih k v2 st hlk hst⟩

/-- Claim C4: for every Model, as the output contract sees it (the pair
of its `getSchema()` and `asDict()` results under the contract the spec
imposes on all Models), the executable check succeeds that the `asDict()`
key set equals the `getSchema()` key set at every nesting level and that
every leaf value dtype matches the schema dtype. -/
theorem claim_c4_model_schema_match {D : Type} [DecidableEq D]
    (m : ModelContract D) : conformsB m.asDict m.getSchema = true :=
  conformsB_of_conforms m.contract

end Umemofi
